import Mathlib

/-!
Mr. Game 1B11188/0 pinball driver (`src/mame/drivers/mrgame.cpp`) and
Roland S-10 family (`src/mame/drivers/roland_s10.cpp`).

A shallow embedding of the peripheral hooks of `mrgame_state`, of the address
maps of both drivers, and of the LCD and QDD hooks of the Roland driver.

* `uint8_t` values are natural numbers; where the C++ computes in `int` and
  stores into a `uint8_t`, the truncation is written `% 256`.
* A write-line callback receives its `int state` argument as an `Int`.
* The driver never reads an interrupt line back: it only calls
  `set_input_line` on its CPUs.  Those calls are recorded, newest first, in
  `line_writes`; `line_level` is the level a line currently has.
* Input ports are outside the driver state: the read hooks receive their
  current values in an `ioports` record.
-/

/-- Modelled from the spec: the framework's `BIT(x, n)` helper (declared in the
emulator core, not in the driver sources), bit `n` of `x` as 0 or 1. -/
def BIT (x n : Nat) : Nat := (x >>> n) &&& 1

/-- Modelled from the spec: line level "clear" of the framework's
interrupt-line primitive. -/
def CLEAR_LINE : Nat := 0

/-- Modelled from the spec: line level "asserted" of the framework's
interrupt-line primitive. -/
def ASSERT_LINE : Nat := 1

/-- The four processors of the board. -/
inductive Cpu where
  | maincpu
  | audiocpu1
  | audiocpu2
  | videocpu
deriving DecidableEq, Repr

/-- The two interrupt inputs the driver uses. -/
inductive InputLine where
  | INPUT_LINE_IRQ0
  | INPUT_LINE_NMI
deriving DecidableEq, Repr

/-- One call `cpu->set_input_line(line, level)`. -/
structure LineWrite where
  cpu : Cpu
  line : InputLine
  level : Nat
deriving DecidableEq, Repr

/-- Current values of the four input ports (`ioport_value`, as read by `read()`). -/
structure ioports where
  DSW0 : Nat
  DSW1 : Nat
  X0 : Nat
  X1 : Nat
deriving DecidableEq, Repr

/-- The mutable members of `mrgame_state` (lines 116-126 of the driver),
together with the record of the interrupt-line writes issued so far. -/
structure mrgame_state where
  m_ack1 : Bool
  m_ack2 : Bool
  m_ackv : Bool
  m_flip : Bool
  m_intst : Bool
  m_irq_state : Nat
  m_row_data : Nat
  m_sound_data : Nat
  m_gfx_bank : Nat
  m_video_data : Nat
  m_video_status : Nat
  line_writes : List LineWrite
deriving DecidableEq, Repr

namespace mrgame_state

/-- The effect of `cpu->set_input_line(line, level)`: the write is recorded. -/
def set_input_line (s : mrgame_state) (cpu : Cpu) (line : InputLine) (level : Nat) :
    mrgame_state :=
  { s with line_writes := LineWrite.mk cpu line level :: s.line_writes }

/-- Level of the latest write to `line` of `cpu` in a record of writes;
a line that was never written is clear. -/
def level_of (cpu : Cpu) (line : InputLine) : List LineWrite → Nat
  | [] => CLEAR_LINE
  | w :: ws => if w.cpu = cpu ∧ w.line = line then w.level else level_of cpu line ws

/-- Current level of `line` of `cpu`. -/
def line_level (s : mrgame_state) (cpu : Cpu) (line : InputLine) : Nat :=
  level_of cpu line s.line_writes

/-- Embedding of `mrgame_state::rsw_r`. -/
def rsw_r (s : mrgame_state) (ports : ioports) : Nat :=
  (ports.DSW0 ||| (s.m_ack1.toNat <<< 5) ||| (s.m_ack2.toNat <<< 4)) % 256

/-- Embedding of `mrgame_state::col_r`. -/
def col_r (s : mrgame_state) (ports : ioports) : Nat :=
  if s.m_row_data = 0 then
    ports.X0 % 256
  else if s.m_row_data = 1 then
    ports.X1 % 256
  else if s.m_row_data = 7 then
    s.m_video_status
  else
    0xff

/-- Embedding of `mrgame_state::row_w`. -/
def row_w (s : mrgame_state) (data : Nat) : mrgame_state :=
  { s with m_row_data := (data &&& 7) % 256 }

/-- Embedding of `mrgame_state::sound_r`. -/
def sound_r (s : mrgame_state) : Nat :=
  s.m_sound_data

/-- Embedding of `mrgame_state::sound_w`. -/
def sound_w (s : mrgame_state) (data : Nat) : mrgame_state :=
  let s1 := { s with m_sound_data := data }
  let s2 := s1.set_input_line Cpu.audiocpu1 InputLine.INPUT_LINE_NMI
    (if BIT data 7 ≠ 0 then CLEAR_LINE else ASSERT_LINE)
  s2.set_input_line Cpu.audiocpu2 InputLine.INPUT_LINE_NMI
    (if BIT data 7 ≠ 0 then CLEAR_LINE else ASSERT_LINE)

/-- Embedding of `mrgame_state::triple_w`. -/
def triple_w (s : mrgame_state) (data : Nat) : mrgame_state :=
  if data &&& 0x18 = 0 then
    { s with m_ackv := decide (BIT data 7 ≠ 0) }
  else
    s

/-- Embedding of `mrgame_state::video_w`. -/
def video_w (s : mrgame_state) (data : Nat) : mrgame_state :=
  { s with m_video_data := data }

/-- Embedding of `mrgame_state::video_a11_w`. -/
def video_a11_w (s : mrgame_state) (state : Int) : mrgame_state :=
  { s with m_gfx_bank := ((s.m_gfx_bank &&& 6) ||| (if state ≠ 0 then 1 else 0)) % 256 }

/-- Embedding of `mrgame_state::video_a12_w`. -/
def video_a12_w (s : mrgame_state) (state : Int) : mrgame_state :=
  { s with m_gfx_bank := ((s.m_gfx_bank &&& 5) ||| (if state ≠ 0 then 2 else 0)) % 256 }

/-- Embedding of `mrgame_state::video_a13_w`. -/
def video_a13_w (s : mrgame_state) (state : Int) : mrgame_state :=
  { s with m_gfx_bank := ((s.m_gfx_bank &&& 3) ||| (if state ≠ 0 then 4 else 0)) % 256 }

/-- Embedding of `mrgame_state::intst_w`. -/
def intst_w (s : mrgame_state) (state : Int) : mrgame_state :=
  let s1 := { s with m_intst := decide (state ≠ 0) }
  if state = 0 then
    s1.set_input_line Cpu.videocpu InputLine.INPUT_LINE_IRQ0 CLEAR_LINE
  else
    s1

/-- Embedding of `mrgame_state::nmi_intst_w`. -/
def nmi_intst_w (s : mrgame_state) (state : Int) : mrgame_state :=
  let s1 := { s with m_intst := decide (state ≠ 0) }
  if state = 0 then
    s1.set_input_line Cpu.videocpu InputLine.INPUT_LINE_NMI CLEAR_LINE
  else
    s1

/-- Embedding of `mrgame_state::flip_w`. -/
def flip_w (s : mrgame_state) (state : Int) : mrgame_state :=
  { s with m_flip := decide (state ≠ 0) }

/-- Embedding of `mrgame_state::ack1_w`. -/
def ack1_w (s : mrgame_state) (data : Nat) : mrgame_state :=
  { s with m_ack1 := decide (BIT data 0 ≠ 0) }

/-- Embedding of `mrgame_state::ack2_w`. -/
def ack2_w (s : mrgame_state) (data : Nat) : mrgame_state :=
  { s with m_ack2 := decide (BIT data 0 ≠ 0) }

/-- Embedding of `mrgame_state::porta_r`. -/
def porta_r (s : mrgame_state) : Nat :=
  s.m_video_data

/-- Embedding of `mrgame_state::portb_w`. -/
def portb_w (s : mrgame_state) (data : Nat) : mrgame_state :=
  { s with m_video_status := data, m_ackv := false }

/-- Embedding of `mrgame_state::portc_r`. -/
def portc_r (s : mrgame_state) (ports : ioports) : Nat :=
  (ports.DSW1 ||| (s.m_ackv.toNat <<< 4)) % 256

/-- Embedding of `mrgame_state::machine_reset`: ten assignments; `m_intst`
is not among them. -/
def machine_reset (s : mrgame_state) : mrgame_state :=
  { s with
    m_sound_data := 0xff
    m_irq_state := 0xff
    m_video_data := 0
    m_gfx_bank := 0
    m_video_status := 0
    m_ack1 := false
    m_ack2 := false
    m_ackv := false
    m_flip := false
    m_row_data := 0 }

/-- Embedding of `mrgame_state::vblank_int_w`. -/
def vblank_int_w (s : mrgame_state) (state : Int) : mrgame_state :=
  if state ≠ 0 ∧ s.m_intst = true then
    s.set_input_line Cpu.videocpu InputLine.INPUT_LINE_IRQ0 ASSERT_LINE
  else
    s

/-- Embedding of `mrgame_state::vblank_nmi_w`. -/
def vblank_nmi_w (s : mrgame_state) (state : Int) : mrgame_state :=
  if state ≠ 0 ∧ s.m_intst = true then
    s.set_input_line Cpu.videocpu InputLine.INPUT_LINE_NMI ASSERT_LINE
  else
    s

/-- Embedding of `mrgame_state::irq_timer`: the 8-bit counter is incremented
first, then compared. -/
def irq_timer (s : mrgame_state) : mrgame_state :=
  let s1 := { s with m_irq_state := (s.m_irq_state + 1) % 256 }
  if s1.m_irq_state = 254 then
    (s1.set_input_line Cpu.audiocpu1 InputLine.INPUT_LINE_IRQ0 ASSERT_LINE).set_input_line
      Cpu.audiocpu2 InputLine.INPUT_LINE_IRQ0 ASSERT_LINE
  else if s1.m_irq_state = 255 then
    (s1.set_input_line Cpu.audiocpu1 InputLine.INPUT_LINE_IRQ0 CLEAR_LINE).set_input_line
      Cpu.audiocpu2 InputLine.INPUT_LINE_IRQ0 CLEAR_LINE
  else
    s1

/-- The part of the machine configuration that binds driver hooks: the
outputs of the select latch (`q_out_cb<n>`) and the screen's vblank callback. -/
structure machine_config where
  q_out_cb : Nat → Option (mrgame_state → Int → mrgame_state)
  screen_vblank : mrgame_state → Int → mrgame_state

/-- Embedding of the hook bindings of `mrgame_state::mrgame`. -/
def mrgame : machine_config where
  q_out_cb := fun n =>
    if n = 0 then some video_a11_w
    else if n = 1 then some nmi_intst_w
    else if n = 3 then some video_a12_w
    else if n = 4 then some video_a13_w
    else if n = 6 then some flip_w
    else none
  screen_vblank := vblank_nmi_w

/-- Embedding of the hook bindings of `mrgame_state::wcup90`: those of
`mrgame`, with latch output 1 and the vblank callback rebound. -/
def wcup90 : machine_config where
  q_out_cb := fun n => if n = 1 then some intst_w else mrgame.q_out_cb n
  screen_vblank := vblank_int_w

/-- A call that reaches the interrupt-enable gate of the video CPU: output 1
of the select latch changes to `state`, or the screen reports vblank `state`. -/
inductive gate_call where
  | latch_q1 (state : Int)
  | vblank (state : Int)
deriving DecidableEq, Repr

/-- One gate call under a machine configuration: the bound hook runs (an
unbound latch output is ignored). -/
def gate_step (cfg : machine_config) (s : mrgame_state) : gate_call → mrgame_state
  | gate_call.latch_q1 state =>
    match cfg.q_out_cb 1 with
    | some hook => hook s state
    | none => s
  | gate_call.vblank state => cfg.screen_vblank s state

/-- A finite sequence of gate calls, first call first. -/
def gate_run (cfg : machine_config) (s : mrgame_state) (calls : List gate_call) :
    mrgame_state :=
  calls.foldl (gate_step cfg) s

/-- The state-changing hooks of the driver, with their arguments. -/
inductive Hook where
  | ack1_w (data : Nat)
  | ack2_w (data : Nat)
  | portb_w (data : Nat)
  | row_w (data : Nat)
  | sound_w (data : Nat)
  | triple_w (data : Nat)
  | video_w (data : Nat)
  | video_a11_w (state : Int)
  | video_a12_w (state : Int)
  | video_a13_w (state : Int)
  | intst_w (state : Int)
  | nmi_intst_w (state : Int)
  | flip_w (state : Int)
  | vblank_int_w (state : Int)
  | vblank_nmi_w (state : Int)
  | irq_timer
  | machine_reset
deriving DecidableEq, Repr

/-- One hook call on a state. -/
def call (s : mrgame_state) : Hook → mrgame_state
  | Hook.ack1_w data => s.ack1_w data
  | Hook.ack2_w data => s.ack2_w data
  | Hook.portb_w data => s.portb_w data
  | Hook.row_w data => s.row_w data
  | Hook.sound_w data => s.sound_w data
  | Hook.triple_w data => s.triple_w data
  | Hook.video_w data => s.video_w data
  | Hook.video_a11_w state => s.video_a11_w state
  | Hook.video_a12_w state => s.video_a12_w state
  | Hook.video_a13_w state => s.video_a13_w state
  | Hook.intst_w state => s.intst_w state
  | Hook.nmi_intst_w state => s.nmi_intst_w state
  | Hook.flip_w state => s.flip_w state
  | Hook.vblank_int_w state => s.vblank_int_w state
  | Hook.vblank_nmi_w state => s.vblank_nmi_w state
  | Hook.irq_timer => s.irq_timer
  | Hook.machine_reset => s.machine_reset

/-- A finite sequence of hook calls, first call first. -/
def run (s : mrgame_state) (hooks : List Hook) : mrgame_state :=
  hooks.foldl call s

/-- States reachable after `machine_reset`: the reset of some state, followed
by any finite sequence of hook calls. -/
def reachable (s : mrgame_state) : Prop :=
  ∃ (s0 : mrgame_state) (hooks : List Hook), s = s0.machine_reset.run hooks

end mrgame_state

/-- A concrete driver state used to evaluate the hooks: every flag set, every
byte at a distinctive value, the video CPU's IRQ0 line asserted. -/
def sample_state : mrgame_state where
  m_ack1 := true
  m_ack2 := true
  m_ackv := true
  m_flip := true
  m_intst := true
  m_irq_state := 0x12
  m_row_data := 5
  m_sound_data := 0x34
  m_gfx_bank := 0xff
  m_video_data := 0x56
  m_video_status := 0x78
  line_writes := [LineWrite.mk Cpu.videocpu InputLine.INPUT_LINE_IRQ0 ASSERT_LINE,
    LineWrite.mk Cpu.videocpu InputLine.INPUT_LINE_NMI ASSERT_LINE]

/-- Concrete input-port values used to evaluate the read hooks. -/
def sample_ports : ioports where
  DSW0 := 0xcf
  DSW1 := 0x0f
  X0 := 0xa5
  X1 := 0x3c

/-- The two writes `irq_timer` issues when it sets the IRQ0 line of both
audio CPUs to `level`, newest first. -/
def irq0_writes (level : Nat) : List LineWrite :=
  [LineWrite.mk Cpu.audiocpu2 InputLine.INPUT_LINE_IRQ0 level,
   LineWrite.mk Cpu.audiocpu1 InputLine.INPUT_LINE_IRQ0 level]

/-- A concrete state as it is after power-on and reset: defaults everywhere,
`intst` false, no interrupt line written yet. -/
def idle_state : mrgame_state :=
  { sample_state.machine_reset with m_intst := false, line_writes := [] }

/-- A concrete sequence of gate calls: enable, vblank, disable, vblank. -/
def sample_gate_calls : List mrgame_state.gate_call :=
  [mrgame_state.gate_call.latch_q1 1, mrgame_state.gate_call.vblank 1,
   mrgame_state.gate_call.latch_q1 0, mrgame_state.gate_call.vblank 1]

/-- The gate invariant for one interrupt input of the video CPU: the line is
clear or asserted, and it is clear whenever `intst` is false. -/
def gate_inv (line : InputLine) (s : mrgame_state) : Prop :=
  (s.line_level Cpu.videocpu line = CLEAR_LINE ∨
    s.line_level Cpu.videocpu line = ASSERT_LINE) ∧
  (s.m_intst = false → s.line_level Cpu.videocpu line = CLEAR_LINE)

/-- Hooks that assign `m_sound_data`: `sound_w` and `machine_reset`. -/
def mrgame_state.Hook.writes_sound_data : mrgame_state.Hook → Bool
  | mrgame_state.Hook.sound_w _ => true
  | mrgame_state.Hook.machine_reset => true
  | _ => false

/-- Hooks that assign `m_ackv`: `triple_w`, `portb_w` and `machine_reset`. -/
def mrgame_state.Hook.writes_ackv : mrgame_state.Hook → Bool
  | mrgame_state.Hook.triple_w _ => true
  | mrgame_state.Hook.portb_w _ => true
  | mrgame_state.Hook.machine_reset => true
  | _ => false

/-- A concrete interleaving of hooks none of which is `sound_w`, `triple_w`,
`portb_w` or `machine_reset`. -/
def sample_hooks : List mrgame_state.Hook :=
  [mrgame_state.Hook.row_w 0x07, mrgame_state.Hook.irq_timer,
   mrgame_state.Hook.video_w 0x99, mrgame_state.Hook.ack1_w 0x01,
   mrgame_state.Hook.intst_w 1, mrgame_state.Hook.vblank_int_w 1]

/-! ## Address maps

The tables are those of the two drivers.  The dispatcher that consults them
belongs to the emulator core; it is modelled here after the specification:
an address is masked by the entry's mirror pattern before the range
comparison, and the handler receives the masked address relative to the
start of the range.
-/

/-- What a range of an address map routes to: a ROM region, a RAM (private
or shared), a driver hook, a device handler, or a no-op. -/
inductive handler where
  | rom_roms
  | ram_nvram
  | rsw_r
  | sound_w
  | video_w
  | triple_w
  | nop
  | row_w
  | col_r
  | rom_video
  | ram
  | ram_videoram
  | ram_objectram
  | selectlatch_write_d0
  | ppi_read
  | ppi_write
  | rom_audio1
  | rom_audio2
  | dacvol_data_w
  | sound_r
  | ack1_w
  | ack2_w
  | ldac_data_w
  | tms_status_r
  | tms_data_w
  | rdac_data_w
  | rom_program
  | qdd_r
  | qdd_w
  | lcd_data_w
  | led_data_w
  | sw_scan_r
  | sw_scan_w
  | led_latch_w
  | keyscan_read
  | keyscan_write
  | output_control_w
  | led_latch1_w
  | vca_cv_w
  | led_latch2_w
deriving DecidableEq, Repr

/-- One `map(start, end)` line of an address map: the range, its mirror
pattern (0 when `.mirror` is absent), and what reads and writes reach. -/
structure address_map_entry where
  addrstart : Nat
  addrend : Nat
  addrmirror : Nat
  read : Option handler
  write : Option handler
deriving DecidableEq, Repr

/-- An address map: the optional `global_mask` and the entries in the order
of the source. -/
structure address_map where
  globalmask : Option Nat
  entries : List address_map_entry
deriving DecidableEq, Repr

/-- `map(s, e).rom().region(..)`: readable only. -/
def map_rom (s e : Nat) (h : handler) : address_map_entry :=
  address_map_entry.mk s e 0 (some h) none

/-- `map(s, e).mirror(m).ram()`: readable and writable memory. -/
def map_ram (s e m : Nat) (h : handler) : address_map_entry :=
  address_map_entry.mk s e m (some h) (some h)

/-- `map(s, e).mirror(m).r(..)`: a read handler only. -/
def map_r (s e m : Nat) (h : handler) : address_map_entry :=
  address_map_entry.mk s e m (some h) none

/-- `map(s, e).mirror(m).w(..)`: a write handler only. -/
def map_w (s e m : Nat) (h : handler) : address_map_entry :=
  address_map_entry.mk s e m none (some h)

/-- `map(s, e).mirror(m).rw(.., ..)`: a read and a write handler. -/
def map_rw (s e m : Nat) (hr hw : handler) : address_map_entry :=
  address_map_entry.mk s e m (some hr) (some hw)

/-- `map(s, e).mirror(m).nopr()`: reads are accepted and ignored. -/
def map_nopr (s e m : Nat) : address_map_entry :=
  address_map_entry.mk s e m (some handler.nop) none

/-- `map(s, e).mirror(m).nopw()`: writes are accepted and ignored. -/
def map_nopw (s e m : Nat) : address_map_entry :=
  address_map_entry.mk s e m none (some handler.nop)

/-- Modelled from the spec: the mask applied to an address before the range
comparison (the dispatcher itself is not among the driver sources); the bits
of the mirror pattern are cleared, `address AND NOT mirror`. -/
def clear_mirror (address mirror : Nat) : Nat :=
  address - (address &&& mirror)

namespace address_map_entry

/-- Modelled from the spec: an entry responds to an address when the address,
masked by the mirror pattern, lies in the declared range. -/
def covers (e : address_map_entry) (address : Nat) : Prop :=
  e.addrstart ≤ clear_mirror address e.addrmirror ∧
  clear_mirror address e.addrmirror ≤ e.addrend

instance (e : address_map_entry) (address : Nat) : Decidable (e.covers address) := by
  unfold covers
  exact inferInstance

/-- Modelled from the spec: the offset inside the range that the handler
receives. -/
def offset (e : address_map_entry) (address : Nat) : Nat :=
  clear_mirror address e.addrmirror - e.addrstart

/-- The mirror pattern shares no set bit with the start or the end address. -/
def mirror_clear (e : address_map_entry) : Prop :=
  e.addrmirror &&& e.addrstart = 0 ∧ e.addrmirror &&& e.addrend = 0

instance (e : address_map_entry) : Decidable e.mirror_clear := by
  unfold mirror_clear
  exact inferInstance

/-- Two entries lie apart: the interval from start to end plus mirror pattern
of one ends below the start of the other. -/
def apart (e1 e2 : address_map_entry) : Prop :=
  e1.addrend + e1.addrmirror < e2.addrstart ∨ e2.addrend + e2.addrmirror < e1.addrstart

instance (e1 e2 : address_map_entry) : Decidable (e1.apart e2) := by
  unfold apart
  exact inferInstance

end address_map_entry

namespace address_map

/-- Modelled from the spec: the dispatcher is not among the driver sources;
`global_mask(g)` keeps the address bits of `g` before the ranges are compared
(only the two audio I/O maps declare one). -/
def masked (m : address_map) (address : Nat) : Nat :=
  match m.globalmask with
  | some g => address &&& g
  | none => address

/-- Modelled from the spec: the first entry of a list that responds to an
address. -/
def lookup_in (entries : List address_map_entry) (address : Nat) :
    Option address_map_entry :=
  entries.find? (fun e => decide (e.covers address))

/-- Modelled from the spec: the entry of the map that responds to an address. -/
def lookup (m : address_map) (address : Nat) : Option address_map_entry :=
  lookup_in m.entries (m.masked address)

/-- Modelled from the spec: where an access goes, as handler and offset inside
the range; `none` when the address is unmapped for that kind of access. -/
def route (m : address_map) (is_write : Bool) (address : Nat) : Option (handler × Nat) :=
  match m.lookup address with
  | none => none
  | some e =>
    match (if is_write then e.write else e.read) with
    | none => none
    | some h => some (h, e.offset (m.masked address))

/-- Every mirror pattern of the map avoids the bits of its range's ends. -/
def mirrors_clear (m : address_map) : Prop :=
  ∀ e ∈ m.entries, e.mirror_clear

instance (m : address_map) : Decidable m.mirrors_clear := by
  unfold mirrors_clear
  exact inferInstance

/-- The entries lie pairwise apart. -/
def ranges_apart (m : address_map) : Prop :=
  m.entries.Pairwise address_map_entry.apart

instance (m : address_map) : Decidable m.ranges_apart := by
  unfold ranges_apart
  exact inferInstance

/-- No address is covered by two entries of the map. -/
def ranges_disjoint (m : address_map) : Prop :=
  m.entries.Pairwise (fun e1 e2 => ∀ address : Nat, ¬ (e1.covers address ∧ e2.covers address))

end address_map

namespace mrgame_state

/-- Embedding of `mrgame_state::main_map`. -/
def main_map : address_map where
  globalmask := none
  entries :=
    [map_rom 0x000000 0x00ffff handler.rom_roms,
     map_ram 0x020000 0x02ffff 0 handler.ram_nvram,
     map_r 0x030001 0x030001 0 handler.rsw_r,
     map_w 0x030003 0x030003 0 handler.sound_w,
     map_w 0x030004 0x030004 0 handler.video_w,
     map_w 0x030007 0x030007 0 handler.triple_w,
     map_nopw 0x030008 0x030009 0,
     map_w 0x03000b 0x03000b 0 handler.row_w,
     map_r 0x03000d 0x03000d 0 handler.col_r,
     map_nopw 0x03000e 0x03000f 0]

/-- Embedding of `mrgame_state::video_map`. -/
def video_map : address_map where
  globalmask := none
  entries :=
    [map_rom 0x0000 0x3fff handler.rom_video,
     map_ram 0x4000 0x47ff 0 handler.ram,
     map_ram 0x4800 0x4bff 0x0400 handler.ram_videoram,
     map_ram 0x5000 0x50ff 0x0700 handler.ram_objectram,
     map_w 0x6800 0x6807 0x07f8 handler.selectlatch_write_d0,
     map_nopr 0x7000 0x7000 0x07ff,
     map_rw 0x8100 0x8103 0x7efc handler.ppi_read handler.ppi_write]

/-- Embedding of `mrgame_state::wcup90_video_map`. -/
def wcup90_video_map : address_map where
  globalmask := none
  entries :=
    [map_rom 0x0000 0x7fff handler.rom_video,
     map_ram 0x8000 0x87ff 0 handler.ram,
     map_ram 0x8800 0x8bff 0x0400 handler.ram_videoram,
     map_ram 0x9000 0x90ff 0x0700 handler.ram_objectram,
     map_w 0xa800 0xa807 0x07f8 handler.selectlatch_write_d0,
     map_nopr 0xb000 0xb000 0x07ff,
     map_rw 0xc000 0xc003 0x3ffc handler.ppi_read handler.ppi_write]

/-- Embedding of `mrgame_state::audio1_map`. -/
def audio1_map : address_map where
  globalmask := none
  entries :=
    [map_rom 0x0000 0x7fff handler.rom_audio1,
     map_ram 0xfc00 0xffff 0 handler.ram]

/-- Embedding of `mrgame_state::audio1_io`. -/
def audio1_io : address_map where
  globalmask := some 3
  entries :=
    [map_w 0x0000 0x0000 0 handler.dacvol_data_w,
     map_r 0x0001 0x0001 0 handler.sound_r,
     map_w 0x0002 0x0002 0 handler.ack1_w,
     map_nopw 0x0003 0x0003 0]

/-- Embedding of `mrgame_state::audio2_map`. -/
def audio2_map : address_map where
  globalmask := none
  entries :=
    [map_rom 0x0000 0x7fff handler.rom_audio2,
     map_ram 0xfc00 0xffff 0 handler.ram]

/-- Embedding of `mrgame_state::audio2_io`. -/
def audio2_io : address_map where
  globalmask := some 7
  entries :=
    [map_w 0x0000 0x0000 0 handler.ldac_data_w,
     map_r 0x0001 0x0001 0 handler.sound_r,
     map_w 0x0002 0x0002 0 handler.ack2_w,
     map_rw 0x0003 0x0003 0 handler.tms_status_r handler.tms_data_w,
     map_w 0x0004 0x0004 0 handler.rdac_data_w]

end mrgame_state

/-! ## Roland S-10 family (`src/mame/drivers/roland_s10.cpp`) -/

/-- One store `bitmap.pix16(row, col) = state` into the screen bitmap; the
pixel holds the `int` reduced to 16 bits. -/
structure pixel_store where
  row : Nat
  col : Nat
  state : Int
deriving DecidableEq, Repr

/-- One access to the USART device. -/
inductive usart_access where
  | read (offset : Nat)
  | write (offset : Nat) (data : Nat)
deriving DecidableEq, Repr

namespace roland_s10_state

/-- Screen width set by `roland_s10_state::s10` (`set_size(6*16, 8*1)`). -/
def screen_width : Nat := 6 * 16

/-- Screen height set by `roland_s10_state::s10` (`set_size(6*16, 8*1)`). -/
def screen_height : Nat := 8 * 1

/-- Embedding of `roland_s10_state::lcd_pixel_update`; the bitmap is the
record of the stores made into it, newest first. -/
def lcd_pixel_update (bitmap : List pixel_store) (line pos y x : Nat) (state : Int) :
    List pixel_store :=
  if x < 5 ∧ y < 8 ∧ line < 2 ∧ pos < 8 then
    pixel_store.mk y ((line * 8 + pos) * 6 + x) (state % 65536) :: bitmap
  else
    bitmap

/-- Embedding of `roland_s10_state::qdd_r`: the value returned and the USART
accesses afterwards (newest first); `usart_read` is what the USART answers to
a read, given the accesses made before. -/
def qdd_r (usart_read : List usart_access → Nat → Nat) (accesses : List usart_access)
    (offset : Nat) : Nat × List usart_access :=
  if BIT offset 1 = 0 then
    (usart_read accesses offset, usart_access.read offset :: accesses)
  else
    (0, accesses)

/-- Embedding of `roland_s10_state::qdd_w`. -/
def qdd_w (accesses : List usart_access) (offset data : Nat) : List usart_access :=
  if BIT offset 1 = 0 then
    usart_access.write offset data :: accesses
  else
    accesses

/-- Embedding of `roland_s10_state::prog_map`. -/
def prog_map : address_map where
  globalmask := none
  entries := [map_rom 0x0000 0xffff handler.rom_program]

/-- Embedding of `roland_s10_state::mks100_ext_map`. -/
def mks100_ext_map : address_map where
  globalmask := none
  entries :=
    [map_rw 0x4000 0x4003 0xffc handler.qdd_r handler.qdd_w,
     map_ram 0x6000 0x7fff 0 handler.ram_nvram,
     map_w 0x8000 0x80ff 0xf00 handler.lcd_data_w,
     map_w 0x9000 0x90ff 0xf00 handler.led_data_w,
     map_rw 0xa000 0xa0ff 0xf00 handler.sw_scan_r handler.sw_scan_w,
     map_w 0xc000 0xc000 0xfff handler.led_latch_w]

/-- Embedding of `roland_s10_state::s10_ext_map`: the entries of
`mks100_ext_map`, then the key scanner. -/
def s10_ext_map : address_map where
  globalmask := none
  entries := mks100_ext_map.entries ++
    [map_rw 0x5000 0x57ff 0x800 handler.keyscan_read handler.keyscan_write]

end roland_s10_state

namespace roland_s220_state

/-- Screen width set by `roland_s220_state::s220` (`set_size(6*16, 8*2)`). -/
def screen_width : Nat := 6 * 16

/-- Screen height set by `roland_s220_state::s220` (`set_size(6*16, 8*2)`). -/
def screen_height : Nat := 8 * 2

/-- Embedding of `roland_s220_state::lcd_pixel_update`. -/
def lcd_pixel_update (bitmap : List pixel_store) (line pos y x : Nat) (state : Int) :
    List pixel_store :=
  if x < 5 ∧ y < 8 ∧ line < 2 ∧ pos < 16 then
    pixel_store.mk (line * 8 + y) (pos * 6 + x) (state % 65536) :: bitmap
  else
    bitmap

/-- Embedding of `roland_s220_state::s220_ext_map`. -/
def s220_ext_map : address_map where
  globalmask := none
  entries :=
    [map_w 0x0000 0x000f 0x3ff0 handler.output_control_w,
     map_rw 0x4000 0x4003 0xffc handler.qdd_r handler.qdd_w,
     map_w 0x5000 0x5000 0xfff handler.led_latch1_w,
     map_ram 0x6000 0x7fff 0 handler.ram_nvram,
     map_w 0x8000 0x80ff 0xf00 handler.lcd_data_w,
     map_w 0x9000 0x90ff 0xf00 handler.vca_cv_w,
     map_rw 0xa000 0xa0ff 0xf00 handler.sw_scan_r handler.sw_scan_w,
     map_w 0xc000 0xc000 0xfff handler.led_latch2_w]

end roland_s220_state

/-- The eleven address maps of the two drivers. -/
def all_address_maps : List address_map :=
  [mrgame_state.main_map, mrgame_state.video_map, mrgame_state.wcup90_video_map,
   mrgame_state.audio1_map, mrgame_state.audio1_io, mrgame_state.audio2_map,
   mrgame_state.audio2_io, roland_s10_state.prog_map, roland_s10_state.mks100_ext_map,
   roland_s10_state.s10_ext_map, roland_s220_state.s220_ext_map]

/-- The five address maps that declare mirrors. -/
def mirrored_address_maps : List address_map :=
  [mrgame_state.video_map, mrgame_state.wcup90_video_map, roland_s10_state.mks100_ext_map,
   roland_s10_state.s10_ext_map, roland_s220_state.s220_ext_map]

/-! ## Helper lemmas -/

theorem BIT_ne_zero_eq_testBit (x n : Nat) : decide (BIT x n ≠ 0) = x.testBit n := by
  unfold BIT Nat.testBit
  rw [Nat.and_comm]
  cases h : (1 &&& x >>> n) with
  | zero => rfl
  | succ k => rfl

theorem and_seven_lt (v : Nat) : v &&& 7 < 8 :=
  Nat.lt_succ_of_le Nat.and_le_right

/-! ## Row select and column read -/

/-- C1: after `row_w(v)`, `col_r` returns the current value of input port X0
when `v & 7 = 0`, of X1 when `v & 7 = 1`, the byte held in `video_status`
(the last byte `portb_w` stored there) when `v & 7 = 7`, and `0xFF` for every
other value of `v & 7`, which then is one of 2, 3, 4, 5, 6.  The two port
values are bytes, as `col_r` returns a `uint8_t`. -/
theorem col_r_after_row_w (s : mrgame_state) (ports : ioports) (v : Nat)
    (hx0 : ports.X0 < 256) (hx1 : ports.X1 < 256) :
    (v &&& 7 = 0 → (s.row_w v).col_r ports = ports.X0) ∧
    (v &&& 7 = 1 → (s.row_w v).col_r ports = ports.X1) ∧
    (v &&& 7 = 7 → (s.row_w v).col_r ports = s.m_video_status) ∧
    (v &&& 7 = 7 → ∀ b : Nat, ((s.portb_w b).row_w v).col_r ports = b ∧
      ((s.row_w v).portb_w b).col_r ports = b) ∧
    (v &&& 7 ≠ 0 → v &&& 7 ≠ 1 → v &&& 7 ≠ 7 →
      (s.row_w v).col_r ports = 0xff ∧ 2 ≤ v &&& 7 ∧ v &&& 7 ≤ 6) := by
  have hlt := and_seven_lt v
  have hmod : (v &&& 7) % 256 = v &&& 7 := Nat.mod_eq_of_lt (by omega)
  refine ⟨?_, ?_, ?_, ?_, ?_⟩
  · intro h
    simp [mrgame_state.row_w, mrgame_state.col_r, h, Nat.mod_eq_of_lt hx0]
  · intro h
    simp [mrgame_state.row_w, mrgame_state.col_r, h, Nat.mod_eq_of_lt hx1]
  · intro h
    simp [mrgame_state.row_w, mrgame_state.col_r, h]
  · intro h b
    simp [mrgame_state.row_w, mrgame_state.col_r, mrgame_state.portb_w, h]
  · intro h0 h1 h7
    refine ⟨?_, by omega, by omega⟩
    simp [mrgame_state.row_w, mrgame_state.col_r, hmod, h0, h1, h7]

theorem col_r_after_row_w_witness :
    ((sample_state.row_w 0x0f).col_r sample_ports = sample_state.m_video_status) ∧
    ((sample_state.row_w 0x08).col_r sample_ports = sample_ports.X0) ∧
    ((sample_state.row_w 0x0a).col_r sample_ports = 0xff) :=
  ⟨(col_r_after_row_w sample_state sample_ports 0x0f (by decide) (by decide)).2.2.1 (by decide),
   (col_r_after_row_w sample_state sample_ports 0x08 (by decide) (by decide)).1 (by decide),
   ((col_r_after_row_w sample_state sample_ports 0x0a (by decide) (by decide)).2.2.2.2
      (by decide) (by decide) (by decide)).1⟩

/-! ## Sound latch -/

/-- C2: `sound_w(v)` stores `v` in `sound_data` and writes the NMI line of
audiocpu1 and of audiocpu2 with one and the same level, ASSERT exactly when
bit 7 of `v` is 0 and CLEAR exactly when bit 7 of `v` is 1; no other field of
the state and no other line changes. -/
theorem sound_w_sets_data_and_nmi (s : mrgame_state) (v : Nat) :
    (s.sound_w v).m_sound_data = v ∧
    (s.sound_w v).line_level Cpu.audiocpu1 InputLine.INPUT_LINE_NMI =
      (s.sound_w v).line_level Cpu.audiocpu2 InputLine.INPUT_LINE_NMI ∧
    ((s.sound_w v).line_level Cpu.audiocpu1 InputLine.INPUT_LINE_NMI = ASSERT_LINE ↔
      v.testBit 7 = false) ∧
    ((s.sound_w v).line_level Cpu.audiocpu1 InputLine.INPUT_LINE_NMI = CLEAR_LINE ↔
      v.testBit 7 = true) ∧
    (s.sound_w v).line_writes =
      LineWrite.mk Cpu.audiocpu2 InputLine.INPUT_LINE_NMI
          (if v.testBit 7 = true then CLEAR_LINE else ASSERT_LINE) ::
        LineWrite.mk Cpu.audiocpu1 InputLine.INPUT_LINE_NMI
          (if v.testBit 7 = true then CLEAR_LINE else ASSERT_LINE) :: s.line_writes ∧
    s.sound_w v = { s with m_sound_data := v, line_writes := (s.sound_w v).line_writes } ∧
    (∀ (cpu : Cpu) (line : InputLine),
      ¬ (line = InputLine.INPUT_LINE_NMI ∧ (cpu = Cpu.audiocpu1 ∨ cpu = Cpu.audiocpu2)) →
      (s.sound_w v).line_level cpu line = s.line_level cpu line) := by
  have hb : (BIT v 7 ≠ 0) ↔ v.testBit 7 = true := by
    rw [← BIT_ne_zero_eq_testBit v 7]
    simp
  cases ht : v.testBit 7 with
  | true =>
    have hb1 : BIT v 7 ≠ 0 := hb.mpr ht
    refine ⟨rfl, ?_, ?_, ?_, ?_, rfl, ?_⟩
    · simp [mrgame_state.sound_w, mrgame_state.set_input_line, mrgame_state.line_level,
        mrgame_state.level_of, hb1]
    · simp [mrgame_state.sound_w, mrgame_state.set_input_line, mrgame_state.line_level,
        mrgame_state.level_of, hb1, CLEAR_LINE, ASSERT_LINE]
    · simp [mrgame_state.sound_w, mrgame_state.set_input_line, mrgame_state.line_level,
        mrgame_state.level_of, hb1]
    · simp [mrgame_state.sound_w, mrgame_state.set_input_line, hb1]
    · intro cpu line hne
      cases cpu <;> cases line <;>
        simp_all [mrgame_state.sound_w, mrgame_state.set_input_line, mrgame_state.line_level,
          mrgame_state.level_of]
  | false =>
    have hb0 : ¬ (BIT v 7 ≠ 0) := fun h => by
      have := hb.mp h
      rw [ht] at this
      exact Bool.noConfusion this
    refine ⟨rfl, ?_, ?_, ?_, ?_, rfl, ?_⟩
    · simp [mrgame_state.sound_w, mrgame_state.set_input_line, mrgame_state.line_level,
        mrgame_state.level_of]
    · simp_all [mrgame_state.sound_w, mrgame_state.set_input_line, mrgame_state.line_level,
        mrgame_state.level_of]
    · simp_all [mrgame_state.sound_w, mrgame_state.set_input_line, mrgame_state.line_level,
        mrgame_state.level_of, CLEAR_LINE, ASSERT_LINE]
    · simp_all [mrgame_state.sound_w, mrgame_state.set_input_line]
    · intro cpu line hne
      cases cpu <;> cases line <;>
        simp_all [mrgame_state.sound_w, mrgame_state.set_input_line, mrgame_state.line_level,
          mrgame_state.level_of]

/-! ## Triple driver-chip write -/

/-- C3: `triple_w(v)` sets `ackv` to bit 7 of `v` when `(v & 0x18) = 0` and
otherwise leaves the whole state, `ackv` included, unchanged; `v = 0x80` sets
`ackv` to true, `v = 0x08` and `v = 0x98` change nothing. -/
theorem triple_w_updates_ackv (s : mrgame_state) (v : Nat) :
    (v &&& 0x18 = 0 → s.triple_w v = { s with m_ackv := v.testBit 7 }) ∧
    (v &&& 0x18 ≠ 0 → s.triple_w v = s) ∧
    (s.triple_w 0x80).m_ackv = true ∧
    s.triple_w 0x80 = { s with m_ackv := true } ∧
    s.triple_w 0x08 = s ∧
    s.triple_w 0x98 = s := by
  refine ⟨?_, ?_, ?_, ?_, ?_, ?_⟩
  · intro h
    unfold mrgame_state.triple_w
    rw [if_pos h, BIT_ne_zero_eq_testBit]
  · intro h
    unfold mrgame_state.triple_w
    rw [if_neg h]
  · rfl
  · rfl
  · rfl
  · rfl

/-! ## Machine reset -/

/-- What `machine_reset` does to an arbitrary state: ten fields take their
defaults, `m_intst` and the interrupt lines keep what they had. -/
theorem machine_reset_fields (s : mrgame_state) :
    s.machine_reset =
      { m_ack1 := false, m_ack2 := false, m_ackv := false, m_flip := false,
        m_intst := s.m_intst, m_irq_state := 0xff, m_row_data := 0, m_sound_data := 0xff,
        m_gfx_bank := 0, m_video_data := 0, m_video_status := 0,
        line_writes := s.line_writes } :=
  rfl

/-- C4 (evaluation at a state whose `m_intst` is set): `machine_reset` gives
`sound_data`, the IRQ counter, `row_data`, `video_data`, `video_status`,
`gfx_bank`, `ack1`, `ack2`, `ackv` and `flip` their defaults, but `intst` is
still true afterwards. -/
theorem machine_reset_keeps_intst :
    sample_state.m_intst = true ∧
    sample_state.machine_reset.m_intst = true ∧
    sample_state.machine_reset.m_sound_data = 0xff ∧
    sample_state.machine_reset.m_irq_state = 0xff ∧
    sample_state.machine_reset.m_row_data = 0 ∧
    sample_state.machine_reset.m_video_data = 0 ∧
    sample_state.machine_reset.m_video_status = 0 ∧
    sample_state.machine_reset.m_gfx_bank = 0 ∧
    sample_state.machine_reset.m_ack1 = false ∧
    sample_state.machine_reset.m_ack2 = false ∧
    sample_state.machine_reset.m_ackv = false ∧
    sample_state.machine_reset.m_flip = false := by
  decide

/-! ## IRQ pulse generator -/

theorem irq_timer_counter (s : mrgame_state) :
    s.irq_timer.m_irq_state = (s.m_irq_state + 1) % 256 := by
  unfold mrgame_state.irq_timer
  simp only [mrgame_state.set_input_line]
  split
  · rfl
  · split <;> rfl

theorem irq_timer_writes (s : mrgame_state) :
    s.irq_timer.line_writes =
      if (s.m_irq_state + 1) % 256 = 254 then irq0_writes ASSERT_LINE ++ s.line_writes
      else if (s.m_irq_state + 1) % 256 = 255 then irq0_writes CLEAR_LINE ++ s.line_writes
      else s.line_writes := by
  unfold mrgame_state.irq_timer
  simp only [mrgame_state.set_input_line, irq0_writes]
  split
  · rfl
  · split <;> rfl

theorem irq_timer_other_fields (s : mrgame_state) :
    s.irq_timer =
      { s with m_irq_state := (s.m_irq_state + 1) % 256,
               line_writes := s.irq_timer.line_writes } := by
  unfold mrgame_state.irq_timer
  simp only [mrgame_state.set_input_line]
  split
  · rfl
  · split <;> rfl

theorem two_cons_ne_self {α : Type} (a b : α) (l : List α) : a :: b :: l ≠ l := by
  intro h
  have := congrArg List.length h
  simp at this
  omega

theorem irq0_writes_append_ne (level : Nat) (l : List LineWrite) :
    irq0_writes level ++ l ≠ l :=
  two_cons_ne_self _ _ l

/-- The first 253 ticks from counter 0 only count. -/
theorem irq_timer_quiet_ticks (s : mrgame_state) (n : Nat) (hn : n < 254) :
    (Nat.iterate mrgame_state.irq_timer n { s with m_irq_state := 0 }).m_irq_state = n ∧
    (Nat.iterate mrgame_state.irq_timer n { s with m_irq_state := 0 }).line_writes =
      s.line_writes := by
  induction n with
  | zero => exact ⟨rfl, rfl⟩
  | succ k ih =>
    obtain ⟨hc, hw⟩ := ih (by omega)
    rw [Function.iterate_succ_apply']
    refine ⟨?_, ?_⟩
    · rw [irq_timer_counter, hc]
      omega
    · rw [irq_timer_writes, hc, hw]
      have h1 : (k + 1) % 256 ≠ 254 := by omega
      have h2 : (k + 1) % 256 ≠ 255 := by omega
      rw [if_neg h1, if_neg h2]

theorem irq_timer_tick_254 (s : mrgame_state) :
    (Nat.iterate mrgame_state.irq_timer 254 { s with m_irq_state := 0 }).m_irq_state = 254 ∧
    (Nat.iterate mrgame_state.irq_timer 254 { s with m_irq_state := 0 }).line_writes =
      irq0_writes ASSERT_LINE ++ s.line_writes := by
  obtain ⟨hc, hw⟩ := irq_timer_quiet_ticks s 253 (by omega)
  rw [Function.iterate_succ_apply']
  refine ⟨?_, ?_⟩
  · rw [irq_timer_counter, hc]
  · rw [irq_timer_writes, hc, hw]
    rfl

theorem irq_timer_tick_255 (s : mrgame_state) :
    (Nat.iterate mrgame_state.irq_timer 255 { s with m_irq_state := 0 }).m_irq_state = 255 ∧
    (Nat.iterate mrgame_state.irq_timer 255 { s with m_irq_state := 0 }).line_writes =
      irq0_writes CLEAR_LINE ++ (irq0_writes ASSERT_LINE ++ s.line_writes) := by
  obtain ⟨hc, hw⟩ := irq_timer_tick_254 s
  rw [Function.iterate_succ_apply']
  refine ⟨?_, ?_⟩
  · rw [irq_timer_counter, hc]
  · rw [irq_timer_writes, hc, hw]
    rfl

theorem irq_timer_tick_256 (s : mrgame_state) :
    (Nat.iterate mrgame_state.irq_timer 256 { s with m_irq_state := 0 }).m_irq_state = 0 ∧
    (Nat.iterate mrgame_state.irq_timer 256 { s with m_irq_state := 0 }).line_writes =
      irq0_writes CLEAR_LINE ++ (irq0_writes ASSERT_LINE ++ s.line_writes) := by
  obtain ⟨hc, hw⟩ := irq_timer_tick_255 s
  rw [Function.iterate_succ_apply']
  refine ⟨?_, ?_⟩
  · rw [irq_timer_counter, hc]
  · rw [irq_timer_writes, hc, hw]
    rfl

/-- C5: one call of `irq_timer` sets the counter to `(c + 1) mod 256`, writes
ASSERT to the IRQ0 line of audiocpu1 and audiocpu2 exactly when the new counter
is 254, writes CLEAR to both exactly when it is 255, and writes no line at all
otherwise, changing no other field.  From counter 0, ticks 1 to 253 write
nothing, tick 254 asserts both lines, tick 255 clears both, and tick 256
brings the counter back to 0. -/
theorem irq_timer_pulse (s : mrgame_state) :
    s.irq_timer.m_irq_state = (s.m_irq_state + 1) % 256 ∧
    (s.irq_timer.line_writes = irq0_writes ASSERT_LINE ++ s.line_writes ↔
      s.irq_timer.m_irq_state = 254) ∧
    (s.irq_timer.line_writes = irq0_writes CLEAR_LINE ++ s.line_writes ↔
      s.irq_timer.m_irq_state = 255) ∧
    (s.irq_timer.line_writes = s.line_writes ↔
      (s.irq_timer.m_irq_state ≠ 254 ∧ s.irq_timer.m_irq_state ≠ 255)) ∧
    s.irq_timer =
      { s with m_irq_state := (s.m_irq_state + 1) % 256,
               line_writes := s.irq_timer.line_writes } ∧
    (∀ n : Nat, n < 254 →
      (Nat.iterate mrgame_state.irq_timer n { s with m_irq_state := 0 }).m_irq_state = n ∧
      (Nat.iterate mrgame_state.irq_timer n { s with m_irq_state := 0 }).line_writes =
        s.line_writes) ∧
    ((Nat.iterate mrgame_state.irq_timer 254 { s with m_irq_state := 0 }).m_irq_state = 254 ∧
      (Nat.iterate mrgame_state.irq_timer 254 { s with m_irq_state := 0 }).line_writes =
        irq0_writes ASSERT_LINE ++ s.line_writes ∧
      (Nat.iterate mrgame_state.irq_timer 254 { s with m_irq_state := 0 }).line_level
        Cpu.audiocpu1 InputLine.INPUT_LINE_IRQ0 = ASSERT_LINE ∧
      (Nat.iterate mrgame_state.irq_timer 254 { s with m_irq_state := 0 }).line_level
        Cpu.audiocpu2 InputLine.INPUT_LINE_IRQ0 = ASSERT_LINE) ∧
    ((Nat.iterate mrgame_state.irq_timer 255 { s with m_irq_state := 0 }).m_irq_state = 255 ∧
      (Nat.iterate mrgame_state.irq_timer 255 { s with m_irq_state := 0 }).line_writes =
        irq0_writes CLEAR_LINE ++ (irq0_writes ASSERT_LINE ++ s.line_writes) ∧
      (Nat.iterate mrgame_state.irq_timer 255 { s with m_irq_state := 0 }).line_level
        Cpu.audiocpu1 InputLine.INPUT_LINE_IRQ0 = CLEAR_LINE ∧
      (Nat.iterate mrgame_state.irq_timer 255 { s with m_irq_state := 0 }).line_level
        Cpu.audiocpu2 InputLine.INPUT_LINE_IRQ0 = CLEAR_LINE) ∧
    ((Nat.iterate mrgame_state.irq_timer 256 { s with m_irq_state := 0 }).m_irq_state = 0 ∧
      (Nat.iterate mrgame_state.irq_timer 256 { s with m_irq_state := 0 }).line_writes =
        (Nat.iterate mrgame_state.irq_timer 255 { s with m_irq_state := 0 }).line_writes) := by
  have hc := irq_timer_counter s
  have hw := irq_timer_writes s
  refine ⟨hc, ?_, ?_, ?_, irq_timer_other_fields s, irq_timer_quiet_ticks s, ?_, ?_, ?_⟩
  · rw [hw, hc]
    by_cases h1 : (s.m_irq_state + 1) % 256 = 254
    · simp [h1]
    · by_cases h2 : (s.m_irq_state + 1) % 256 = 255
      · simp [h1, h2, irq0_writes, ASSERT_LINE, CLEAR_LINE]
      · rw [if_neg h1, if_neg h2]
        exact ⟨fun h => absurd h.symm (irq0_writes_append_ne _ _), fun h => absurd h h1⟩
  · rw [hw, hc]
    by_cases h1 : (s.m_irq_state + 1) % 256 = 254
    · simp [h1, irq0_writes, ASSERT_LINE, CLEAR_LINE]
    · by_cases h2 : (s.m_irq_state + 1) % 256 = 255
      · simp [h2]
      · rw [if_neg h1, if_neg h2]
        exact ⟨fun h => absurd h.symm (irq0_writes_append_ne _ _), fun h => absurd h h2⟩
  · rw [hw, hc]
    by_cases h1 : (s.m_irq_state + 1) % 256 = 254
    · rw [if_pos h1]
      exact ⟨fun h => absurd h (irq0_writes_append_ne _ _), fun h => absurd h1 h.1⟩
    · by_cases h2 : (s.m_irq_state + 1) % 256 = 255
      · rw [if_neg h1, if_pos h2]
        exact ⟨fun h => absurd h (irq0_writes_append_ne _ _), fun h => absurd h2 h.2⟩
      · rw [if_neg h1, if_neg h2]
        exact ⟨fun _ => ⟨h1, h2⟩, fun _ => rfl⟩
  · obtain ⟨h254, w254⟩ := irq_timer_tick_254 s
    refine ⟨h254, w254, ?_, ?_⟩
    · rw [mrgame_state.line_level, w254]
      rfl
    · rw [mrgame_state.line_level, w254]
      rfl
  · obtain ⟨h255, w255⟩ := irq_timer_tick_255 s
    refine ⟨h255, w255, ?_, ?_⟩
    · rw [mrgame_state.line_level, w255]
      rfl
    · rw [mrgame_state.line_level, w255]
      rfl
  · obtain ⟨h256, w256⟩ := irq_timer_tick_256 s
    exact ⟨h256, w256.trans (irq_timer_tick_255 s).2.symm⟩

/-! ## Interrupt-enable gating of the video CPU -/

/-- C6: in the wcup90 variant (latch output 1 bound to `intst_w`, vblank to
`vblank_int_w`, line IRQ0) and in the mrgame variant (`nmi_intst_w`,
`vblank_nmi_w`, line NMI): from every state, the setter called with false
makes `intst` false and leaves the video CPU's line CLEAR, also right after a
vblank pulse asserted it; the setter called with true (non-zero) followed by
the vblank callback with a non-zero state leaves the line ASSERTED. -/
theorem intst_gate_clear_and_assert (s : mrgame_state) (t v : Int) (ht : t ≠ 0)
    (hv : v ≠ 0) :
    (mrgame_state.wcup90.q_out_cb 1 = some mrgame_state.intst_w ∧
      mrgame_state.wcup90.screen_vblank = mrgame_state.vblank_int_w ∧
      (s.intst_w 0).m_intst = false ∧
      (s.intst_w 0).line_level Cpu.videocpu InputLine.INPUT_LINE_IRQ0 = CLEAR_LINE ∧
      (((s.intst_w t).vblank_int_w v).intst_w 0).line_level Cpu.videocpu
        InputLine.INPUT_LINE_IRQ0 = CLEAR_LINE ∧
      ((s.intst_w t).vblank_int_w v).line_level Cpu.videocpu InputLine.INPUT_LINE_IRQ0 =
        ASSERT_LINE) ∧
    (mrgame_state.mrgame.q_out_cb 1 = some mrgame_state.nmi_intst_w ∧
      mrgame_state.mrgame.screen_vblank = mrgame_state.vblank_nmi_w ∧
      (s.nmi_intst_w 0).m_intst = false ∧
      (s.nmi_intst_w 0).line_level Cpu.videocpu InputLine.INPUT_LINE_NMI = CLEAR_LINE ∧
      (((s.nmi_intst_w t).vblank_nmi_w v).nmi_intst_w 0).line_level Cpu.videocpu
        InputLine.INPUT_LINE_NMI = CLEAR_LINE ∧
      ((s.nmi_intst_w t).vblank_nmi_w v).line_level Cpu.videocpu InputLine.INPUT_LINE_NMI =
        ASSERT_LINE) := by
  refine ⟨⟨rfl, rfl, rfl, rfl, rfl, ?_⟩, ⟨rfl, rfl, rfl, rfl, rfl, ?_⟩⟩
  · simp [mrgame_state.intst_w, mrgame_state.vblank_int_w, mrgame_state.set_input_line,
      mrgame_state.line_level, mrgame_state.level_of, ht, hv]
  · simp [mrgame_state.nmi_intst_w, mrgame_state.vblank_nmi_w, mrgame_state.set_input_line,
      mrgame_state.line_level, mrgame_state.level_of, ht, hv]

theorem intst_gate_clear_and_assert_witness :
    ((sample_state.intst_w 1).vblank_int_w 1).line_level Cpu.videocpu
        InputLine.INPUT_LINE_IRQ0 = ASSERT_LINE ∧
    (sample_state.nmi_intst_w 0).line_level Cpu.videocpu InputLine.INPUT_LINE_NMI =
        CLEAR_LINE :=
  ⟨(intst_gate_clear_and_assert sample_state 1 1 (by decide) (by decide)).1.2.2.2.2.2,
   (intst_gate_clear_and_assert sample_state 1 1 (by decide) (by decide)).2.2.2.2.1⟩

theorem gate_inv_intst_w (s : mrgame_state) (state : Int)
    (h : gate_inv InputLine.INPUT_LINE_IRQ0 s) :
    gate_inv InputLine.INPUT_LINE_IRQ0 (s.intst_w state) := by
  unfold gate_inv at *
  by_cases hs : state = 0
  · subst hs
    exact ⟨Or.inl rfl, fun _ => rfl⟩
  · have e : s.intst_w state = { s with m_intst := true } := by
      simp [mrgame_state.intst_w, hs]
    rw [e]
    exact ⟨h.1, fun hf => Bool.noConfusion hf⟩

theorem gate_inv_vblank_int_w (s : mrgame_state) (state : Int)
    (h : gate_inv InputLine.INPUT_LINE_IRQ0 s) :
    gate_inv InputLine.INPUT_LINE_IRQ0 (s.vblank_int_w state) := by
  unfold gate_inv at *
  by_cases hc : state ≠ 0 ∧ s.m_intst = true
  · have e : s.vblank_int_w state =
        s.set_input_line Cpu.videocpu InputLine.INPUT_LINE_IRQ0 ASSERT_LINE := by
      unfold mrgame_state.vblank_int_w
      rw [if_pos hc]
    rw [e]
    refine ⟨Or.inr rfl, fun hf => ?_⟩
    have hi : s.m_intst = false := hf
    rw [hc.2] at hi
    exact Bool.noConfusion hi
  · have e : s.vblank_int_w state = s := by
      unfold mrgame_state.vblank_int_w
      rw [if_neg hc]
    rw [e]
    exact h

theorem gate_inv_nmi_intst_w (s : mrgame_state) (state : Int)
    (h : gate_inv InputLine.INPUT_LINE_NMI s) :
    gate_inv InputLine.INPUT_LINE_NMI (s.nmi_intst_w state) := by
  unfold gate_inv at *
  by_cases hs : state = 0
  · subst hs
    exact ⟨Or.inl rfl, fun _ => rfl⟩
  · have e : s.nmi_intst_w state = { s with m_intst := true } := by
      simp [mrgame_state.nmi_intst_w, hs]
    rw [e]
    exact ⟨h.1, fun hf => Bool.noConfusion hf⟩

theorem gate_inv_vblank_nmi_w (s : mrgame_state) (state : Int)
    (h : gate_inv InputLine.INPUT_LINE_NMI s) :
    gate_inv InputLine.INPUT_LINE_NMI (s.vblank_nmi_w state) := by
  unfold gate_inv at *
  by_cases hc : state ≠ 0 ∧ s.m_intst = true
  · have e : s.vblank_nmi_w state =
        s.set_input_line Cpu.videocpu InputLine.INPUT_LINE_NMI ASSERT_LINE := by
      unfold mrgame_state.vblank_nmi_w
      rw [if_pos hc]
    rw [e]
    refine ⟨Or.inr rfl, fun hf => ?_⟩
    have hi : s.m_intst = false := hf
    rw [hc.2] at hi
    exact Bool.noConfusion hi
  · have e : s.vblank_nmi_w state = s := by
      unfold mrgame_state.vblank_nmi_w
      rw [if_neg hc]
    rw [e]
    exact h

theorem gate_inv_run_wcup90 (calls : List mrgame_state.gate_call) (s : mrgame_state)
    (h : gate_inv InputLine.INPUT_LINE_IRQ0 s) :
    gate_inv InputLine.INPUT_LINE_IRQ0 (mrgame_state.gate_run mrgame_state.wcup90 s calls) := by
  induction calls generalizing s with
  | nil => exact h
  | cons c cs ih =>
    have hstep : gate_inv InputLine.INPUT_LINE_IRQ0
        (mrgame_state.gate_step mrgame_state.wcup90 s c) := by
      cases c with
      | latch_q1 state => exact gate_inv_intst_w s state h
      | vblank state => exact gate_inv_vblank_int_w s state h
    exact ih _ hstep

theorem gate_inv_run_mrgame (calls : List mrgame_state.gate_call) (s : mrgame_state)
    (h : gate_inv InputLine.INPUT_LINE_NMI s) :
    gate_inv InputLine.INPUT_LINE_NMI (mrgame_state.gate_run mrgame_state.mrgame s calls) := by
  induction calls generalizing s with
  | nil => exact h
  | cons c cs ih =>
    have hstep : gate_inv InputLine.INPUT_LINE_NMI
        (mrgame_state.gate_step mrgame_state.mrgame s c) := by
      cases c with
      | latch_q1 state => exact gate_inv_nmi_intst_w s state h
      | vblank state => exact gate_inv_vblank_nmi_w s state h
    exact ih _ hstep

theorem gate_inv_three_states (line : InputLine) (s : mrgame_state) (h : gate_inv line s) :
    ((s.m_intst = false ∧ s.line_level Cpu.videocpu line = CLEAR_LINE) ∨
      (s.m_intst = true ∧ s.line_level Cpu.videocpu line = CLEAR_LINE) ∨
      (s.m_intst = true ∧ s.line_level Cpu.videocpu line = ASSERT_LINE)) ∧
    ¬ (s.m_intst = false ∧ s.line_level Cpu.videocpu line = ASSERT_LINE) := by
  obtain ⟨hl, hc⟩ := h
  cases hi : s.m_intst with
  | false =>
    have hcl := hc hi
    refine ⟨Or.inl ⟨rfl, hcl⟩, fun hx => ?_⟩
    have := hx.2
    rw [hcl] at this
    exact absurd this (by decide)
  | true =>
    refine ⟨?_, fun hx => Bool.noConfusion hx.1⟩
    cases hl with
    | inl h0 => exact Or.inr (Or.inl ⟨rfl, h0⟩)
    | inr h1 => exact Or.inr (Or.inr ⟨rfl, h1⟩)

/-- C9: starting with the video CPU's line clear (whatever `intst` is then,
in particular from `intst = false`), after any finite sequence of intst-setter calls and vblank-callback calls with
arbitrary arguments the state is one of (intst false, line clear), (intst
true, line clear), (intst true, line asserted), and never (intst false, line
asserted): in the wcup90 variant for `intst_w`/`vblank_int_w` on IRQ0, in the
mrgame variant for `nmi_intst_w`/`vblank_nmi_w` on NMI. -/
theorem intst_gate_reachable_states (s : mrgame_state) (calls : List mrgame_state.gate_call) :
    (s.line_level Cpu.videocpu InputLine.INPUT_LINE_IRQ0 = CLEAR_LINE →
      (((mrgame_state.gate_run mrgame_state.wcup90 s calls).m_intst = false ∧
          (mrgame_state.gate_run mrgame_state.wcup90 s calls).line_level Cpu.videocpu
            InputLine.INPUT_LINE_IRQ0 = CLEAR_LINE) ∨
        ((mrgame_state.gate_run mrgame_state.wcup90 s calls).m_intst = true ∧
          (mrgame_state.gate_run mrgame_state.wcup90 s calls).line_level Cpu.videocpu
            InputLine.INPUT_LINE_IRQ0 = CLEAR_LINE) ∨
        ((mrgame_state.gate_run mrgame_state.wcup90 s calls).m_intst = true ∧
          (mrgame_state.gate_run mrgame_state.wcup90 s calls).line_level Cpu.videocpu
            InputLine.INPUT_LINE_IRQ0 = ASSERT_LINE)) ∧
      ¬ ((mrgame_state.gate_run mrgame_state.wcup90 s calls).m_intst = false ∧
          (mrgame_state.gate_run mrgame_state.wcup90 s calls).line_level Cpu.videocpu
            InputLine.INPUT_LINE_IRQ0 = ASSERT_LINE)) ∧
    (s.line_level Cpu.videocpu InputLine.INPUT_LINE_NMI = CLEAR_LINE →
      (((mrgame_state.gate_run mrgame_state.mrgame s calls).m_intst = false ∧
          (mrgame_state.gate_run mrgame_state.mrgame s calls).line_level Cpu.videocpu
            InputLine.INPUT_LINE_NMI = CLEAR_LINE) ∨
        ((mrgame_state.gate_run mrgame_state.mrgame s calls).m_intst = true ∧
          (mrgame_state.gate_run mrgame_state.mrgame s calls).line_level Cpu.videocpu
            InputLine.INPUT_LINE_NMI = CLEAR_LINE) ∨
        ((mrgame_state.gate_run mrgame_state.mrgame s calls).m_intst = true ∧
          (mrgame_state.gate_run mrgame_state.mrgame s calls).line_level Cpu.videocpu
            InputLine.INPUT_LINE_NMI = ASSERT_LINE)) ∧
      ¬ ((mrgame_state.gate_run mrgame_state.mrgame s calls).m_intst = false ∧
          (mrgame_state.gate_run mrgame_state.mrgame s calls).line_level Cpu.videocpu
            InputLine.INPUT_LINE_NMI = ASSERT_LINE)) := by
  refine ⟨fun hl => ?_, fun hl => ?_⟩
  · exact gate_inv_three_states _ _ (gate_inv_run_wcup90 calls s ⟨Or.inl hl, fun _ => hl⟩)
  · exact gate_inv_three_states _ _ (gate_inv_run_mrgame calls s ⟨Or.inl hl, fun _ => hl⟩)

theorem intst_gate_reachable_states_witness :
    idle_state.line_level Cpu.videocpu InputLine.INPUT_LINE_IRQ0 = CLEAR_LINE ∧
    ¬ ((mrgame_state.gate_run mrgame_state.wcup90 idle_state sample_gate_calls).m_intst = false ∧
        (mrgame_state.gate_run mrgame_state.wcup90 idle_state sample_gate_calls).line_level
          Cpu.videocpu InputLine.INPUT_LINE_IRQ0 = ASSERT_LINE) :=
  ⟨rfl, ((intst_gate_reachable_states idle_state sample_gate_calls).1 rfl).2⟩

/-! ## Graphics bank bits -/

theorem and_low3 (g m : Nat) (hm : m < 8) : g &&& m = (g % 8) &&& m := by
  have h7 : g % 8 = g &&& 7 := (Nat.and_pow_two_sub_one_eq_mod g 3).symm
  have hm7 : 7 &&& m = m := by
    interval_cases m <;> rfl
  rw [h7, Nat.and_assoc, hm7]

theorem video_a11_w_bank (s : mrgame_state) (state : Int) :
    (s.video_a11_w state).m_gfx_bank =
      2 * (s.m_gfx_bank % 8 / 2) + (if state ≠ 0 then 1 else 0) := by
  show ((s.m_gfx_bank &&& 6) ||| (if state ≠ 0 then 1 else 0)) % 256 = _
  rw [and_low3 _ 6 (by decide)]
  have hr : s.m_gfx_bank % 8 < 8 := Nat.mod_lt _ (by decide)
  generalize s.m_gfx_bank % 8 = r at hr
  interval_cases r <;> split <;> rfl

theorem video_a12_w_bank (s : mrgame_state) (state : Int) :
    (s.video_a12_w state).m_gfx_bank =
      s.m_gfx_bank % 2 + 4 * (s.m_gfx_bank % 8 / 4) + (if state ≠ 0 then 2 else 0) := by
  show ((s.m_gfx_bank &&& 5) ||| (if state ≠ 0 then 2 else 0)) % 256 = _
  rw [and_low3 _ 5 (by decide)]
  have h2 : s.m_gfx_bank % 2 = s.m_gfx_bank % 8 % 2 := by omega
  rw [h2]
  have hr : s.m_gfx_bank % 8 < 8 := Nat.mod_lt _ (by decide)
  generalize s.m_gfx_bank % 8 = r at hr
  interval_cases r <;> split <;> rfl

theorem video_a13_w_bank (s : mrgame_state) (state : Int) :
    (s.video_a13_w state).m_gfx_bank =
      s.m_gfx_bank % 4 + (if state ≠ 0 then 4 else 0) := by
  show ((s.m_gfx_bank &&& 3) ||| (if state ≠ 0 then 4 else 0)) % 256 = _
  rw [and_low3 _ 3 (by decide)]
  have h4 : s.m_gfx_bank % 4 = s.m_gfx_bank % 8 % 4 := by omega
  rw [h4]
  have hr : s.m_gfx_bank % 8 < 8 := Nat.mod_lt _ (by decide)
  generalize s.m_gfx_bank % 8 = r at hr
  interval_cases r <;> split <;> rfl

theorem bool_state_ne_zero (k : Nat) (b : Bool) :
    (if ((b.toNat : Nat) : Int) ≠ 0 then k else 0) = k * b.toNat := by
  cases b <;> simp

/-- C7: whatever `gfx_bank` held before (values above 7 included), once
`video_a11_w(b0)`, `video_a12_w(b1)` and `video_a13_w(b2)` have each been
called, in any of the six orders, `gfx_bank = b0 + 2*b1 + 4*b2`; after
(1, 1, 0) it is 0b011 and a further `video_a11_w(0)` makes it 0b010. -/
theorem gfx_bank_setters_compose (s : mrgame_state) (b0 b1 b2 : Bool) :
    (((s.video_a11_w b0.toNat).video_a12_w b1.toNat).video_a13_w b2.toNat).m_gfx_bank =
      b0.toNat + 2 * b1.toNat + 4 * b2.toNat ∧
    (((s.video_a11_w b0.toNat).video_a13_w b2.toNat).video_a12_w b1.toNat).m_gfx_bank =
      b0.toNat + 2 * b1.toNat + 4 * b2.toNat ∧
    (((s.video_a12_w b1.toNat).video_a11_w b0.toNat).video_a13_w b2.toNat).m_gfx_bank =
      b0.toNat + 2 * b1.toNat + 4 * b2.toNat ∧
    (((s.video_a12_w b1.toNat).video_a13_w b2.toNat).video_a11_w b0.toNat).m_gfx_bank =
      b0.toNat + 2 * b1.toNat + 4 * b2.toNat ∧
    (((s.video_a13_w b2.toNat).video_a11_w b0.toNat).video_a12_w b1.toNat).m_gfx_bank =
      b0.toNat + 2 * b1.toNat + 4 * b2.toNat ∧
    (((s.video_a13_w b2.toNat).video_a12_w b1.toNat).video_a11_w b0.toNat).m_gfx_bank =
      b0.toNat + 2 * b1.toNat + 4 * b2.toNat ∧
    (((s.video_a11_w 1).video_a12_w 1).video_a13_w 0).m_gfx_bank = 0b011 ∧
    ((((s.video_a11_w 1).video_a12_w 1).video_a13_w 0).video_a11_w 0).m_gfx_bank = 0b010 := by
  have h0 := Bool.toNat_lt b0
  have h1 := Bool.toNat_lt b1
  have h2 := Bool.toNat_lt b2
  refine ⟨?_, ?_, ?_, ?_, ?_, ?_, ?_, ?_⟩
  · rw [video_a13_w_bank, video_a12_w_bank, video_a11_w_bank]
    simp only [bool_state_ne_zero]
    omega
  · rw [video_a12_w_bank, video_a13_w_bank, video_a11_w_bank]
    simp only [bool_state_ne_zero]
    omega
  · rw [video_a13_w_bank, video_a11_w_bank, video_a12_w_bank]
    simp only [bool_state_ne_zero]
    omega
  · rw [video_a11_w_bank, video_a13_w_bank, video_a12_w_bank]
    simp only [bool_state_ne_zero]
    omega
  · rw [video_a12_w_bank, video_a11_w_bank, video_a13_w_bank]
    simp only [bool_state_ne_zero]
    omega
  · rw [video_a11_w_bank, video_a12_w_bank, video_a13_w_bank]
    simp only [bool_state_ne_zero]
    omega
  · rw [video_a13_w_bank, video_a12_w_bank, video_a11_w_bank]
    simp
    omega
  · rw [video_a11_w_bank, video_a13_w_bank, video_a12_w_bank, video_a11_w_bank]
    simp
    omega

theorem call_gfx_bank_lt (s : mrgame_state) (h : mrgame_state.Hook)
    (hs : s.m_gfx_bank < 8) : (s.call h).m_gfx_bank < 8 := by
  cases h with
  | ack1_w data => exact hs
  | ack2_w data => exact hs
  | portb_w data => exact hs
  | row_w data => exact hs
  | sound_w data => exact hs
  | triple_w data =>
    show (s.triple_w data).m_gfx_bank < 8
    unfold mrgame_state.triple_w
    split <;> exact hs
  | video_w data => exact hs
  | video_a11_w state =>
    show (s.video_a11_w state).m_gfx_bank < 8
    rw [video_a11_w_bank]
    split <;> omega
  | video_a12_w state =>
    show (s.video_a12_w state).m_gfx_bank < 8
    rw [video_a12_w_bank]
    split <;> omega
  | video_a13_w state =>
    show (s.video_a13_w state).m_gfx_bank < 8
    rw [video_a13_w_bank]
    split <;> omega
  | intst_w state =>
    show (s.intst_w state).m_gfx_bank < 8
    unfold mrgame_state.intst_w
    split <;> exact hs
  | nmi_intst_w state =>
    show (s.nmi_intst_w state).m_gfx_bank < 8
    unfold mrgame_state.nmi_intst_w
    split <;> exact hs
  | flip_w state => exact hs
  | vblank_int_w state =>
    show (s.vblank_int_w state).m_gfx_bank < 8
    unfold mrgame_state.vblank_int_w
    split <;> exact hs
  | vblank_nmi_w state =>
    show (s.vblank_nmi_w state).m_gfx_bank < 8
    unfold mrgame_state.vblank_nmi_w
    split <;> exact hs
  | irq_timer =>
    show s.irq_timer.m_gfx_bank < 8
    rw [irq_timer_other_fields]
    exact hs
  | machine_reset => exact (by decide : (0 : Nat) < 8)

theorem run_gfx_bank_lt (hooks : List mrgame_state.Hook) (s : mrgame_state)
    (hs : s.m_gfx_bank < 8) : (s.run hooks).m_gfx_bank < 8 := by
  induction hooks generalizing s with
  | nil => exact hs
  | cons h hs' ih => exact ih (s.call h) (call_gfx_bank_lt s h hs)

theorem reachable_gfx_bank_lt (s : mrgame_state) (hr : s.reachable) : s.m_gfx_bank < 8 := by
  obtain ⟨s0, hooks, rfl⟩ := hr
  exact run_gfx_bank_lt hooks _ (by decide : (0 : Nat) < 8)

theorem testBit_eq_above (a b k : Nat) (ha : a < 8) (hb : b < 8)
    (h : ∀ i, i < 3 → i ≠ k → a.testBit i = b.testBit i) :
    ∀ i, i ≠ k → a.testBit i = b.testBit i := by
  intro i hik
  by_cases hi : i < 3
  · exact h i hi hik
  · have h8 : 8 ≤ 2 ^ i :=
      le_trans (by decide : 8 ≤ 2 ^ 3) (Nat.pow_le_pow_right (by decide) (by omega))
    rw [Nat.testBit_lt_two_pow (lt_of_lt_of_le ha h8),
      Nat.testBit_lt_two_pow (lt_of_lt_of_le hb h8)]

/-- C10: in every state reachable after `machine_reset`, `gfx_bank` is in
0..7, and for every boolean `b` each of `video_a11_w(b)`, `video_a12_w(b)`,
`video_a13_w(b)` makes bit 0, bit 1, bit 2 of `gfx_bank` respectively equal
to `b`, leaves every other bit of `gfx_bank` and every other field untouched,
and keeps `gfx_bank` in 0..7. -/
theorem gfx_bank_one_bit_per_setter (s : mrgame_state) (hr : s.reachable) (b : Bool) :
    s.m_gfx_bank < 8 ∧
    ((s.video_a11_w b.toNat).m_gfx_bank.testBit 0 = b ∧
      (∀ i, i ≠ 0 → (s.video_a11_w b.toNat).m_gfx_bank.testBit i = s.m_gfx_bank.testBit i) ∧
      (s.video_a11_w b.toNat).m_gfx_bank < 8 ∧
      s.video_a11_w b.toNat = { s with m_gfx_bank := (s.video_a11_w b.toNat).m_gfx_bank }) ∧
    ((s.video_a12_w b.toNat).m_gfx_bank.testBit 1 = b ∧
      (∀ i, i ≠ 1 → (s.video_a12_w b.toNat).m_gfx_bank.testBit i = s.m_gfx_bank.testBit i) ∧
      (s.video_a12_w b.toNat).m_gfx_bank < 8 ∧
      s.video_a12_w b.toNat = { s with m_gfx_bank := (s.video_a12_w b.toNat).m_gfx_bank }) ∧
    ((s.video_a13_w b.toNat).m_gfx_bank.testBit 2 = b ∧
      (∀ i, i ≠ 2 → (s.video_a13_w b.toNat).m_gfx_bank.testBit i = s.m_gfx_bank.testBit i) ∧
      (s.video_a13_w b.toNat).m_gfx_bank < 8 ∧
      s.video_a13_w b.toNat = { s with m_gfx_bank := (s.video_a13_w b.toNat).m_gfx_bank }) := by
  have hg := reachable_gfx_bank_lt s hr
  have h11 : (s.video_a11_w b.toNat).m_gfx_bank < 8 :=
    call_gfx_bank_lt s (mrgame_state.Hook.video_a11_w b.toNat) hg
  have h12 : (s.video_a12_w b.toNat).m_gfx_bank < 8 :=
    call_gfx_bank_lt s (mrgame_state.Hook.video_a12_w b.toNat) hg
  have h13 : (s.video_a13_w b.toNat).m_gfx_bank < 8 :=
    call_gfx_bank_lt s (mrgame_state.Hook.video_a13_w b.toNat) hg
  refine ⟨hg, ⟨?_, ?_, h11, rfl⟩, ⟨?_, ?_, h12, rfl⟩, ⟨?_, ?_, h13, rfl⟩⟩
  · rw [video_a11_w_bank]
    generalize s.m_gfx_bank = g at hg
    cases b <;> interval_cases g <;> decide
  · apply testBit_eq_above _ _ 0 h11 hg
    rw [video_a11_w_bank]
    generalize s.m_gfx_bank = g at hg
    cases b <;> interval_cases g <;> decide
  · rw [video_a12_w_bank]
    generalize s.m_gfx_bank = g at hg
    cases b <;> interval_cases g <;> decide
  · apply testBit_eq_above _ _ 1 h12 hg
    rw [video_a12_w_bank]
    generalize s.m_gfx_bank = g at hg
    cases b <;> interval_cases g <;> decide
  · rw [video_a13_w_bank]
    generalize s.m_gfx_bank = g at hg
    cases b <;> interval_cases g <;> decide
  · apply testBit_eq_above _ _ 2 h13 hg
    rw [video_a13_w_bank]
    generalize s.m_gfx_bank = g at hg
    cases b <;> interval_cases g <;> decide

theorem gfx_bank_one_bit_per_setter_witness :
    (sample_state.machine_reset.run
        [mrgame_state.Hook.video_a12_w 1, mrgame_state.Hook.sound_w 0x42]).reachable ∧
    ((sample_state.machine_reset.run
        [mrgame_state.Hook.video_a12_w 1, mrgame_state.Hook.sound_w 0x42]).video_a11_w
          true.toNat).m_gfx_bank.testBit 0 = true :=
  ⟨⟨sample_state, _, rfl⟩,
   (gfx_bank_one_bit_per_setter _ ⟨sample_state, _, rfl⟩ true).2.1.1⟩

/-! ## Status read and the sound acknowledge flags -/

theorem ack_flag_toNat (a : Nat) : (decide (BIT a 0 ≠ 0)).toNat = a &&& 1 := by
  unfold BIT
  rw [Nat.shiftRight_zero, Nat.and_one_is_mod]
  rcases Nat.mod_two_eq_zero_or_one a with h | h <;> simp [h]

theorem ack_bit_lt (a k : Nat) (hk : k < 8) : (a &&& 1) <<< k < 2 ^ 8 := by
  rw [Nat.and_one_is_mod, Nat.shiftLeft_eq]
  have h1 : a % 2 ≤ 1 := by omega
  have h2 : 2 ^ k ≤ 2 ^ 7 := Nat.pow_le_pow_right (by decide) (by omega)
  calc a % 2 * 2 ^ k ≤ 1 * 2 ^ 7 := Nat.mul_le_mul h1 h2
    _ < 2 ^ 8 := by decide

theorem testBit_ack_bit (a k i : Nat) :
    ((a &&& 1) <<< k).testBit i = (decide (i = k) && a.testBit 0) := by
  rw [Nat.testBit_shiftLeft, Nat.testBit_and]
  by_cases hik : i = k
  · subst hik
    simp
  · by_cases hge : i ≥ k
    · have hpos : i - k ≠ 0 := by omega
      have h1 : (1 : Nat).testBit (i - k) = false := by
        apply Nat.testBit_lt_two_pow
        exact Nat.one_lt_two_pow hpos
      simp [hik, h1]
    · simp [hik, hge]

/-- C8: for every DSW0 port value `d` (a byte) and all bytes `a`, `b`: after
`ack1_w(a)` and `ack2_w(b)`, in either order, `rsw_r` returns
`d | ((a & 1) << 5) | ((b & 1) << 4)`; each setter stores bit 0 of its byte as
the flag and changes nothing else; bit 5 of the status is DSW0 bit 5 or-ed
with ack1, bit 4 is DSW0 bit 4 or-ed with ack2, every other bit is the DSW0 bit. -/
theorem rsw_r_after_acks (s : mrgame_state) (ports : ioports) (a b : Nat)
    (hd : ports.DSW0 < 256) :
    ((s.ack1_w a).ack2_w b).rsw_r ports =
      ports.DSW0 ||| ((a &&& 1) <<< 5) ||| ((b &&& 1) <<< 4) ∧
    ((s.ack2_w b).ack1_w a).rsw_r ports =
      ports.DSW0 ||| ((a &&& 1) <<< 5) ||| ((b &&& 1) <<< 4) ∧
    s.ack1_w a = { s with m_ack1 := a.testBit 0 } ∧
    s.ack2_w b = { s with m_ack2 := b.testBit 0 } ∧
    (((s.ack1_w a).ack2_w b).rsw_r ports).testBit 5 =
      (ports.DSW0.testBit 5 || a.testBit 0) ∧
    (((s.ack1_w a).ack2_w b).rsw_r ports).testBit 4 =
      (ports.DSW0.testBit 4 || b.testBit 0) ∧
    (∀ i, i ≠ 4 → i ≠ 5 →
      (((s.ack1_w a).ack2_w b).rsw_r ports).testBit i = ports.DSW0.testBit i) := by
  have hlt : ports.DSW0 ||| ((a &&& 1) <<< 5) ||| ((b &&& 1) <<< 4) < 2 ^ 8 :=
    Nat.or_lt_two_pow (Nat.or_lt_two_pow hd (ack_bit_lt a 5 (by decide)))
      (ack_bit_lt b 4 (by decide))
  have e1 : ((s.ack1_w a).ack2_w b).rsw_r ports =
      ports.DSW0 ||| ((a &&& 1) <<< 5) ||| ((b &&& 1) <<< 4) := by
    show (ports.DSW0 ||| ((decide (BIT a 0 ≠ 0)).toNat <<< 5) |||
      ((decide (BIT b 0 ≠ 0)).toNat <<< 4)) % 256 = _
    rw [ack_flag_toNat, ack_flag_toNat]
    exact Nat.mod_eq_of_lt hlt
  have e2 : ((s.ack2_w b).ack1_w a).rsw_r ports =
      ports.DSW0 ||| ((a &&& 1) <<< 5) ||| ((b &&& 1) <<< 4) := by
    show (ports.DSW0 ||| ((decide (BIT a 0 ≠ 0)).toNat <<< 5) |||
      ((decide (BIT b 0 ≠ 0)).toNat <<< 4)) % 256 = _
    rw [ack_flag_toNat, ack_flag_toNat]
    exact Nat.mod_eq_of_lt hlt
  refine ⟨e1, e2, ?_, ?_, ?_, ?_, ?_⟩
  · show { s with m_ack1 := decide (BIT a 0 ≠ 0) } = _
    rw [BIT_ne_zero_eq_testBit]
  · show { s with m_ack2 := decide (BIT b 0 ≠ 0) } = _
    rw [BIT_ne_zero_eq_testBit]
  · rw [e1, Nat.testBit_or, Nat.testBit_or, testBit_ack_bit, testBit_ack_bit]
    simp
  · rw [e1, Nat.testBit_or, Nat.testBit_or, testBit_ack_bit, testBit_ack_bit]
    simp
  · intro i h4 h5
    rw [e1, Nat.testBit_or, Nat.testBit_or, testBit_ack_bit, testBit_ack_bit]
    simp [h4, h5]

theorem rsw_r_after_acks_witness :
    sample_ports.DSW0 < 256 ∧
    ((sample_state.ack1_w 0xfe).ack2_w 0x01).rsw_r sample_ports =
      sample_ports.DSW0 ||| ((0xfe &&& 1) <<< 5) ||| ((0x01 &&& 1) <<< 4) :=
  ⟨by decide, (rsw_r_after_acks sample_state sample_ports 0xfe 0x01 (by decide)).1⟩

/-! ## Row selector range -/

theorem call_row_data_le (s : mrgame_state) (h : mrgame_state.Hook)
    (hs : s.m_row_data ≤ 7) : (s.call h).m_row_data ≤ 7 := by
  cases h with
  | ack1_w data => exact hs
  | ack2_w data => exact hs
  | portb_w data => exact hs
  | row_w data =>
    show (data &&& 7) % 256 ≤ 7
    have := and_seven_lt data
    omega
  | sound_w data => exact hs
  | triple_w data =>
    show (s.triple_w data).m_row_data ≤ 7
    unfold mrgame_state.triple_w
    split <;> exact hs
  | video_w data => exact hs
  | video_a11_w state => exact hs
  | video_a12_w state => exact hs
  | video_a13_w state => exact hs
  | intst_w state =>
    show (s.intst_w state).m_row_data ≤ 7
    unfold mrgame_state.intst_w
    split <;> exact hs
  | nmi_intst_w state =>
    show (s.nmi_intst_w state).m_row_data ≤ 7
    unfold mrgame_state.nmi_intst_w
    split <;> exact hs
  | flip_w state => exact hs
  | vblank_int_w state =>
    show (s.vblank_int_w state).m_row_data ≤ 7
    unfold mrgame_state.vblank_int_w
    split <;> exact hs
  | vblank_nmi_w state =>
    show (s.vblank_nmi_w state).m_row_data ≤ 7
    unfold mrgame_state.vblank_nmi_w
    split <;> exact hs
  | irq_timer =>
    show s.irq_timer.m_row_data ≤ 7
    rw [irq_timer_other_fields]
    exact hs
  | machine_reset => exact Nat.zero_le 7

theorem run_row_data_le (hooks : List mrgame_state.Hook) (s : mrgame_state)
    (hs : s.m_row_data ≤ 7) : (s.run hooks).m_row_data ≤ 7 := by
  induction hooks generalizing s with
  | nil => exact hs
  | cons h hs' ih => exact ih (s.call h) (call_row_data_le s h hs)

/-- C11: in every state reachable from `machine_reset` by any finite sequence
of driver hooks with arbitrary arguments, `0 <= row_data <= 7`; and on any
state `row_w(v)` stores `v & 7`, changes nothing else, and gives the same
state as `row_w(v & 7)`. -/
theorem row_data_in_range (s : mrgame_state) (hr : s.reachable) (t : mrgame_state)
    (v : Nat) :
    (0 ≤ s.m_row_data ∧ s.m_row_data ≤ 7) ∧
    (t.row_w v).m_row_data = v &&& 7 ∧
    t.row_w v = { t with m_row_data := v &&& 7 } ∧
    t.row_w v = t.row_w (v &&& 7) := by
  have hmod : (v &&& 7) % 256 = v &&& 7 := by
    have := and_seven_lt v
    omega
  have hidem : (v &&& 7) &&& 7 = v &&& 7 := by
    rw [Nat.and_assoc, Nat.and_self]
  refine ⟨⟨Nat.zero_le _, ?_⟩, hmod, ?_, ?_⟩
  · obtain ⟨s0, hooks, rfl⟩ := hr
    exact run_row_data_le hooks _ (Nat.zero_le 7)
  · show { t with m_row_data := (v &&& 7) % 256 } = _
    rw [hmod]
  · show { t with m_row_data := (v &&& 7) % 256 } =
      { t with m_row_data := ((v &&& 7) &&& 7) % 256 }
    rw [hidem]

theorem row_data_in_range_witness :
    (sample_state.machine_reset.run
        [mrgame_state.Hook.row_w 0xfd, mrgame_state.Hook.irq_timer]).reachable ∧
    (sample_state.machine_reset.run
        [mrgame_state.Hook.row_w 0xfd, mrgame_state.Hook.irq_timer]).m_row_data ≤ 7 :=
  ⟨⟨sample_state, _, rfl⟩,
   (row_data_in_range _ ⟨sample_state, _, rfl⟩ sample_state 0xfd).1.2⟩

/-! ## Sound latch read-back -/

theorem route_masked_congr (m : address_map) (w : Bool) (a b : Nat)
    (h : m.masked a = m.masked b) : m.route w a = m.route w b := by
  unfold address_map.route address_map.lookup
  rw [h]

theorem call_sound_data (s : mrgame_state) (h : mrgame_state.Hook)
    (hk : h.writes_sound_data = false) : (s.call h).m_sound_data = s.m_sound_data := by
  cases h with
  | ack1_w data => rfl
  | ack2_w data => rfl
  | portb_w data => rfl
  | row_w data => rfl
  | sound_w data => exact Bool.noConfusion hk
  | triple_w data =>
    show (s.triple_w data).m_sound_data = _
    unfold mrgame_state.triple_w
    split <;> rfl
  | video_w data => rfl
  | video_a11_w state => rfl
  | video_a12_w state => rfl
  | video_a13_w state => rfl
  | intst_w state =>
    show (s.intst_w state).m_sound_data = _
    unfold mrgame_state.intst_w
    split <;> rfl
  | nmi_intst_w state =>
    show (s.nmi_intst_w state).m_sound_data = _
    unfold mrgame_state.nmi_intst_w
    split <;> rfl
  | flip_w state => rfl
  | vblank_int_w state =>
    show (s.vblank_int_w state).m_sound_data = _
    unfold mrgame_state.vblank_int_w
    split <;> rfl
  | vblank_nmi_w state =>
    show (s.vblank_nmi_w state).m_sound_data = _
    unfold mrgame_state.vblank_nmi_w
    split <;> rfl
  | irq_timer =>
    show s.irq_timer.m_sound_data = _
    rw [irq_timer_other_fields]
  | machine_reset => exact Bool.noConfusion hk

theorem run_sound_data (hooks : List mrgame_state.Hook) (s : mrgame_state)
    (hk : ∀ h ∈ hooks, h.writes_sound_data = false) :
    (s.run hooks).m_sound_data = s.m_sound_data := by
  induction hooks generalizing s with
  | nil => rfl
  | cons h hs ih =>
    have h1 := call_sound_data s h (hk h (List.mem_cons_self h hs))
    have h2 := ih (s.call h) (fun x hx => hk x (List.mem_cons_of_mem h hx))
    exact h2.trans h1

/-- C14: `sound_r` returns the last `sound_data`: after `sound_w(v)` it
returns `v`, and still `v` after any interleaving of hooks none of which is
`sound_w` or `machine_reset`; right after `machine_reset` it returns 0xFF;
port 1 of both audio CPUs' I/O maps (IN1, IN2, under the maps' global masks)
reads through the same `sound_r`.  (`sound_r` is a function of the state
alone, so it changes none.) -/
theorem sound_r_returns_last_sound_data (s : mrgame_state) (v : Nat)
    (hooks : List mrgame_state.Hook) (hk : ∀ h ∈ hooks, h.writes_sound_data = false)
    (a : Nat) :
    (s.sound_w v).sound_r = v ∧
    ((s.sound_w v).run hooks).sound_r = v ∧
    s.machine_reset.sound_r = 0xff ∧
    (a &&& 3 = 1 → mrgame_state.audio1_io.route false a = some (handler.sound_r, 0)) ∧
    (a &&& 7 = 1 → mrgame_state.audio2_io.route false a = some (handler.sound_r, 0)) := by
  refine ⟨rfl, ?_, rfl, ?_, ?_⟩
  · show ((s.sound_w v).run hooks).m_sound_data = v
    rw [run_sound_data hooks _ hk]
    rfl
  · intro h
    have e : mrgame_state.audio1_io.masked a = mrgame_state.audio1_io.masked 1 := by
      show a &&& 3 = 1 &&& 3
      rw [h]
      rfl
    rw [route_masked_congr _ _ _ _ e]
    rfl
  · intro h
    have e : mrgame_state.audio2_io.masked a = mrgame_state.audio2_io.masked 1 := by
      show a &&& 7 = 1 &&& 7
      rw [h]
      rfl
    rw [route_masked_congr _ _ _ _ e]
    rfl

theorem sound_r_returns_last_sound_data_witness :
    (∀ h ∈ sample_hooks, h.writes_sound_data = false) ∧
    ((sample_state.sound_w 0xa7).run sample_hooks).sound_r = 0xa7 ∧
    mrgame_state.audio2_io.route false 0xff09 = some (handler.sound_r, 0) :=
  ⟨by decide,
   (sound_r_returns_last_sound_data sample_state 0xa7 sample_hooks (by decide) 0xff09).2.1,
   (sound_r_returns_last_sound_data sample_state 0xa7 sample_hooks (by decide) 0xff09).2.2.2.2
     (by decide)⟩

/-! ## Video acknowledge handshake -/

theorem call_ackv (s : mrgame_state) (h : mrgame_state.Hook)
    (hk : h.writes_ackv = false) : (s.call h).m_ackv = s.m_ackv := by
  cases h with
  | ack1_w data => rfl
  | ack2_w data => rfl
  | portb_w data => exact Bool.noConfusion hk
  | row_w data => rfl
  | sound_w data => rfl
  | triple_w data => exact Bool.noConfusion hk
  | video_w data => rfl
  | video_a11_w state => rfl
  | video_a12_w state => rfl
  | video_a13_w state => rfl
  | intst_w state =>
    show (s.intst_w state).m_ackv = _
    unfold mrgame_state.intst_w
    split <;> rfl
  | nmi_intst_w state =>
    show (s.nmi_intst_w state).m_ackv = _
    unfold mrgame_state.nmi_intst_w
    split <;> rfl
  | flip_w state => rfl
  | vblank_int_w state =>
    show (s.vblank_int_w state).m_ackv = _
    unfold mrgame_state.vblank_int_w
    split <;> rfl
  | vblank_nmi_w state =>
    show (s.vblank_nmi_w state).m_ackv = _
    unfold mrgame_state.vblank_nmi_w
    split <;> rfl
  | irq_timer =>
    show s.irq_timer.m_ackv = _
    rw [irq_timer_other_fields]
  | machine_reset => exact Bool.noConfusion hk

theorem run_ackv (hooks : List mrgame_state.Hook) (s : mrgame_state)
    (hk : ∀ h ∈ hooks, h.writes_ackv = false) : (s.run hooks).m_ackv = s.m_ackv := by
  induction hooks generalizing s with
  | nil => rfl
  | cons h hs ih =>
    have h1 := call_ackv s h (hk h (List.mem_cons_self h hs))
    have h2 := ih (s.call h) (fun x hx => hk x (List.mem_cons_of_mem h hx))
    exact h2.trans h1

theorem portc_r_of_ackv (s : mrgame_state) (ports : ioports) (hd : ports.DSW1 < 256) :
    s.portc_r ports = ports.DSW1 ||| (s.m_ackv.toNat <<< 4) := by
  show (ports.DSW1 ||| (s.m_ackv.toNat <<< 4)) % 256 = _
  apply Nat.mod_eq_of_lt
  have h4 : s.m_ackv.toNat <<< 4 < 2 ^ 8 := by
    cases s.m_ackv <;> decide
  exact Nat.or_lt_two_pow hd h4

/-- C15: `portb_w(v)` stores `v` in `video_status` and sets `ackv` to false
whatever `triple_w` set before, changing nothing else; for every DSW1 port
value `d` (a byte), `portc_r` returns `d | 0x10` after `triple_w(0x80)`, also
across hooks that do not assign `ackv`, and returns exactly `d` immediately
after any `portb_w`. -/
theorem portb_w_clears_ackv (s : mrgame_state) (ports : ioports) (v w : Nat)
    (hooks : List mrgame_state.Hook) (hd : ports.DSW1 < 256)
    (hk : ∀ h ∈ hooks, h.writes_ackv = false) :
    s.portb_w v = { s with m_video_status := v, m_ackv := false } ∧
    ((s.triple_w w).portb_w v).m_ackv = false ∧
    ((s.triple_w w).portb_w v).m_video_status = v ∧
    (s.triple_w 0x80).portc_r ports = ports.DSW1 ||| 0x10 ∧
    ((s.triple_w 0x80).run hooks).portc_r ports = ports.DSW1 ||| 0x10 ∧
    (s.portb_w v).portc_r ports = ports.DSW1 ∧
    ((s.triple_w 0x80).portb_w v).portc_r ports = ports.DSW1 := by
  refine ⟨rfl, rfl, rfl, ?_, ?_, ?_, ?_⟩
  · rw [portc_r_of_ackv _ _ hd]
    rfl
  · rw [portc_r_of_ackv _ _ hd, run_ackv hooks _ hk]
    rfl
  · rw [portc_r_of_ackv _ _ hd]
    exact Nat.or_zero _
  · rw [portc_r_of_ackv _ _ hd]
    exact Nat.or_zero _

theorem portb_w_clears_ackv_witness :
    sample_ports.DSW1 < 256 ∧
    (∀ h ∈ sample_hooks, h.writes_ackv = false) ∧
    ((sample_state.triple_w 0x80).run sample_hooks).portc_r sample_ports =
      sample_ports.DSW1 ||| 0x10 ∧
    ((sample_state.triple_w 0x80).portb_w 0x5a).portc_r sample_ports = sample_ports.DSW1 :=
  ⟨by decide, by decide,
   (portb_w_clears_ackv sample_state sample_ports 0x5a 0x80 sample_hooks (by decide)
     (by decide)).2.2.2.2.1,
   (portb_w_clears_ackv sample_state sample_ports 0x5a 0x80 sample_hooks (by decide)
     (by decide)).2.2.2.2.2.2⟩

/-! ## Address maps: masking, covering, lookup -/

theorem and_sub_half (a m : Nat) :
    (a - (a &&& m)) / 2 = a / 2 - (a / 2 &&& m / 2) := by
  have hle : a &&& m ≤ a := Nat.and_le_left
  have hdiv : (a &&& m) / 2 = a / 2 &&& m / 2 := Nat.and_div_two
  have hpar : (a &&& m) % 2 = 1 ↔ a % 2 = 1 ∧ m % 2 = 1 := Nat.and_mod_two_eq_one
  rw [← hdiv]
  rcases Nat.mod_two_eq_zero_or_one (a &&& m) with h | h
  · omega
  · have := hpar.mp h
    omega

/-- Masking clears exactly the bits of the mirror pattern: bit `i` of
`clear_mirror a m` is bit `i` of `a` and not bit `i` of `m`. -/
theorem testBit_clear_mirror (a m i : Nat) :
    (clear_mirror a m).testBit i = (a.testBit i && !m.testBit i) := by
  unfold clear_mirror
  induction i generalizing a m with
  | zero =>
    have hle : a &&& m ≤ a := Nat.and_le_left
    have hpar : (a &&& m) % 2 = 1 ↔ a % 2 = 1 ∧ m % 2 = 1 := Nat.and_mod_two_eq_one
    rw [Nat.testBit_zero, Nat.testBit_zero, Nat.testBit_zero]
    rcases Nat.mod_two_eq_zero_or_one a with ha | ha <;>
      rcases Nat.mod_two_eq_zero_or_one m with hm | hm
    all_goals
      first
      | (have h1 : (a - (a &&& m)) % 2 = 0 := by omega
         simp [h1, ha, hm])
      | (have h1 : (a - (a &&& m)) % 2 = 1 := by omega
         simp [h1, ha, hm])
  | succ k ih =>
    rw [Nat.testBit_succ, Nat.testBit_succ, Nat.testBit_succ, and_sub_half]
    exact ih (a / 2) (m / 2)

theorem clear_mirror_and (a m : Nat) : clear_mirror a m &&& m = 0 := by
  apply Nat.eq_of_testBit_eq
  intro i
  rw [Nat.testBit_and, testBit_clear_mirror, Nat.zero_testBit]
  cases a.testBit i <;> cases m.testBit i <;> rfl

theorem clear_mirror_idem (a m : Nat) :
    clear_mirror (clear_mirror a m) m = clear_mirror a m := by
  show clear_mirror a m - (clear_mirror a m &&& m) = clear_mirror a m
  rw [clear_mirror_and]
  rfl

theorem clear_mirror_le (a m : Nat) : clear_mirror a m ≤ a :=
  Nat.sub_le _ _

theorem le_clear_mirror_add (a m : Nat) : a ≤ clear_mirror a m + m := by
  unfold clear_mirror
  have h1 : a &&& m ≤ m := Nat.and_le_right
  omega

theorem covers_envelope (e : address_map_entry) (a : Nat) (h : e.covers a) :
    e.addrstart ≤ a ∧ a ≤ e.addrend + e.addrmirror := by
  obtain ⟨h1, h2⟩ := h
  have h3 := clear_mirror_le a e.addrmirror
  have h4 := le_clear_mirror_add a e.addrmirror
  omega

theorem covers_clear_mirror (e : address_map_entry) (a : Nat) :
    e.covers (clear_mirror a e.addrmirror) ↔ e.covers a := by
  unfold address_map_entry.covers
  rw [clear_mirror_idem]

theorem offset_clear_mirror (e : address_map_entry) (a : Nat) :
    e.offset (clear_mirror a e.addrmirror) = e.offset a := by
  unfold address_map_entry.offset
  rw [clear_mirror_idem]

theorem apart_not_both (e1 e2 : address_map_entry) (h : e1.apart e2) (a : Nat) :
    ¬ (e1.covers a ∧ e2.covers a) := by
  intro hc
  have h1 := covers_envelope e1 a hc.1
  have h2 := covers_envelope e2 a hc.2
  unfold address_map_entry.apart at h
  omega

theorem ranges_disjoint_of_apart (m : address_map) (h : m.ranges_apart) :
    m.ranges_disjoint :=
  List.Pairwise.imp (fun {e1 e2} hap => apart_not_both e1 e2 hap) h

theorem lookup_in_of_covers (a : Nat) (l : List address_map_entry)
    (hp : l.Pairwise (fun e1 e2 => ∀ address : Nat, ¬ (e1.covers address ∧ e2.covers address)))
    (e : address_map_entry) (he : e ∈ l) (hc : e.covers a) :
    address_map.lookup_in l a = some e := by
  induction l with
  | nil => cases he
  | cons x xs ih =>
    rw [List.pairwise_cons] at hp
    unfold address_map.lookup_in
    rw [List.find?_cons]
    by_cases hx : x.covers a
    · have hxe : x = e := by
        rcases List.mem_cons.mp he with h | h
        · exact h.symm
        · exact absurd ⟨hx, hc⟩ (hp.1 e h a)
      rw [decide_eq_true hx, hxe]
    · have hmem : e ∈ xs := by
        rcases List.mem_cons.mp he with h | h
        · rw [h] at hc
          exact absurd hc hx
        · exact h
      simp only [hx, decide_False]
      exact ih hp.2 hmem

theorem covered_once (l : List address_map_entry)
    (hp : l.Pairwise (fun e1 e2 => ∀ address : Nat, ¬ (e1.covers address ∧ e2.covers address)))
    (a : Nat) (e1 e2 : address_map_entry) (h1 : e1 ∈ l) (h2 : e2 ∈ l)
    (c1 : e1.covers a) (c2 : e2.covers a) : e1 = e2 := by
  have r1 := lookup_in_of_covers a l hp e1 h1 c1
  have r2 := lookup_in_of_covers a l hp e2 h2 c2
  rw [r1] at r2
  exact Option.some.inj r2

theorem lookup_in_perm (l l2 : List address_map_entry) (hperm : l2.Perm l)
    (hp : l.Pairwise (fun e1 e2 => ∀ address : Nat, ¬ (e1.covers address ∧ e2.covers address)))
    (a : Nat) : address_map.lookup_in l2 a = address_map.lookup_in l a := by
  have hp2 : l2.Pairwise
      (fun e1 e2 => ∀ address : Nat, ¬ (e1.covers address ∧ e2.covers address)) :=
    hperm.symm.pairwise hp (fun {x y} hxy address hc => hxy address ⟨hc.2, hc.1⟩)
  cases hl : address_map.lookup_in l a with
  | none =>
    unfold address_map.lookup_in at hl ⊢
    rw [List.find?_eq_none] at hl ⊢
    intro x hx
    exact hl x (hperm.mem_iff.mp hx)
  | some e =>
    have hc : e.covers a := by
      unfold address_map.lookup_in at hl
      have := List.find?_some hl
      exact of_decide_eq_true this
    have hm : e ∈ l := by
      unfold address_map.lookup_in at hl
      exact List.mem_of_find?_eq_some hl
    exact lookup_in_of_covers a l2 hp2 e (hperm.mem_iff.mpr hm) hc

theorem and_split (a m i : Nat) :
    a &&& m = 2 ^ i * ((a / 2 ^ i) &&& (m / 2 ^ i)) + ((a % 2 ^ i) &&& (m % 2 ^ i)) := by
  have hlt : (a % 2 ^ i) &&& (m % 2 ^ i) < 2 ^ i :=
    Nat.and_lt_two_pow _ (Nat.mod_lt _ (Nat.two_pow_pos i))
  apply Nat.eq_of_testBit_eq
  intro j
  rw [Nat.testBit_mul_pow_two_add _ hlt j]
  by_cases hj : j < i
  · rw [if_pos hj, Nat.testBit_and, Nat.testBit_and, Nat.testBit_mod_two_pow,
      Nat.testBit_mod_two_pow]
    simp [hj]
  · rw [if_neg hj, Nat.testBit_and, Nat.testBit_and, ← Nat.shiftRight_eq_div_pow,
      ← Nat.shiftRight_eq_div_pow, Nat.testBit_shiftRight, Nat.testBit_shiftRight]
    have e : i + (j - i) = j := by omega
    rw [e]

theorem and_field (a i k : Nat) :
    a &&& ((2 ^ k - 1) * 2 ^ i) = 2 ^ i * (a / 2 ^ i % 2 ^ k) := by
  rw [and_split a ((2 ^ k - 1) * 2 ^ i) i, Nat.mul_div_cancel _ (Nat.two_pow_pos i),
    Nat.mul_mod_left, Nat.and_zero, Nat.and_pow_two_sub_one_eq_mod, Nat.add_zero]

theorem and_0400 (a : Nat) : a &&& 0x0400 = 1024 * (a / 1024 % 2) := and_field a 10 1

theorem and_0700 (a : Nat) : a &&& 0x0700 = 256 * (a / 256 % 8) := and_field a 8 3

theorem and_07f8 (a : Nat) : a &&& 0x07f8 = 8 * (a / 8 % 256) := and_field a 3 8

theorem and_07ff (a : Nat) : a &&& 0x07ff = a % 2048 :=
  Nat.and_pow_two_sub_one_eq_mod a 11

theorem and_3ffc (a : Nat) : a &&& 0x3ffc = 4 * (a / 4 % 4096) := and_field a 2 12

theorem and_0ffc (a : Nat) : a &&& 0x0ffc = 4 * (a / 4 % 1024) := and_field a 2 10

theorem and_7efc (a : Nat) :
    a &&& 0x7efc = 256 * (2 * (a / 256 / 2 % 64)) + 4 * (a % 256 / 4 % 64) := by
  have h := and_split a 0x7efc 8
  have h1 : (a / 2 ^ 8) &&& (0x7efc / 2 ^ 8) = 2 * (a / 256 / 2 % 64) :=
    and_field (a / 256) 1 6
  have h2 : (a % 2 ^ 8) &&& (0x7efc % 2 ^ 8) = 4 * (a % 256 / 4 % 64) :=
    and_field (a % 256) 2 6
  rw [h1, h2] at h
  exact h

/-! ## Disjoint ranges -/

theorem all_address_maps_apart :
    ∀ m ∈ all_address_maps, m.mirrors_clear ∧ m.ranges_apart := by
  decide

/-- C16: in each of the eleven address maps of the two drivers no mirror
pattern shares a set bit with its range's start or end address, and no address
is covered by two entries (ranges taken with their mirrors); hence an address,
after the map's global mask, is covered by at most one entry, and routing is
the same for every order of the entries. -/
theorem address_maps_disjoint (m : address_map) (hm : m ∈ all_address_maps) :
    m.mirrors_clear ∧
    m.ranges_disjoint ∧
    (∀ (a : Nat) (e1 e2 : address_map_entry), e1 ∈ m.entries → e2 ∈ m.entries →
      e1.covers (m.masked a) → e2.covers (m.masked a) → e1 = e2) ∧
    (∀ (es : List address_map_entry), es.Perm m.entries → ∀ (w : Bool) (a : Nat),
      (address_map.mk m.globalmask es).route w a = m.route w a) := by
  obtain ⟨hmc, hap⟩ := all_address_maps_apart m hm
  have hd := ranges_disjoint_of_apart m hap
  refine ⟨hmc, hd, ?_, ?_⟩
  · intro a e1 e2 h1 h2 c1 c2
    exact covered_once m.entries hd (m.masked a) e1 e2 h1 h2 c1 c2
  · intro es hperm w a
    have hl : (address_map.mk m.globalmask es).lookup a = m.lookup a :=
      lookup_in_perm m.entries es hperm hd (m.masked a)
    unfold address_map.route
    rw [hl]
    rfl

theorem address_maps_disjoint_witness :
    mrgame_state.video_map ∈ all_address_maps ∧
    mrgame_state.video_map.mirrors_clear ∧
    (address_map.mk mrgame_state.video_map.globalmask
        mrgame_state.video_map.entries.reverse).route true 0x6ff9 =
      mrgame_state.video_map.route true 0x6ff9 :=
  ⟨by decide,
   (address_maps_disjoint mrgame_state.video_map (by decide)).1,
   (address_maps_disjoint mrgame_state.video_map (by decide)).2.2.2
     mrgame_state.video_map.entries.reverse (List.reverse_perm _) true 0x6ff9⟩

/-! ## Mirrored addresses -/

theorem masked_of_no_globalmask (m : address_map) (hg : m.globalmask = none) (a : Nat) :
    m.masked a = a := by
  unfold address_map.masked
  rw [hg]

theorem route_of_covers (m : address_map) (hg : m.globalmask = none)
    (hd : m.ranges_disjoint) (e : address_map_entry) (he : e ∈ m.entries) (a : Nat)
    (hc : e.covers a) (w : Bool) :
    m.lookup a = some e ∧
    m.route w a = (if w then e.write else e.read).map (fun h => (h, e.offset a)) := by
  have hl : m.lookup a = some e := by
    unfold address_map.lookup
    rw [masked_of_no_globalmask m hg]
    exact lookup_in_of_covers a m.entries hd e he hc
  refine ⟨hl, ?_⟩
  unfold address_map.route
  rw [hl, masked_of_no_globalmask m hg]
  show (match (if w = true then e.write else e.read) with
    | none => none
    | some h => some (h, e.offset a)) =
    Option.map (fun h => (h, e.offset a)) (if w = true then e.write else e.read)
  generalize (if w = true then e.write else e.read) = o
  cases o <;> rfl

theorem mirrored_address_maps_apart :
    ∀ m ∈ mirrored_address_maps, m.globalmask = none ∧ m.ranges_apart := by
  decide

theorem video_map_select_latch (b : Nat) (h1 : 0x6800 ≤ b) (h2 : b ≤ 0x6fff) :
    mrgame_state.video_map.route true b = some (handler.selectlatch_write_d0, b &&& 7) := by
  have hf := and_07f8 b
  have h7 : b &&& 7 = b % 8 := Nat.and_pow_two_sub_one_eq_mod b 3
  have hc : (map_w 0x6800 0x6807 0x07f8 handler.selectlatch_write_d0).covers b := by
    show 0x6800 ≤ b - (b &&& 0x07f8) ∧ b - (b &&& 0x07f8) ≤ 0x6807
    omega
  have hr := (route_of_covers mrgame_state.video_map rfl
    (ranges_disjoint_of_apart _ (by decide)) _ (by decide) b hc true).2
  rw [hr]
  show some (handler.selectlatch_write_d0, b - (b &&& 0x07f8) - 0x6800) = _
  have : b - (b &&& 0x07f8) - 0x6800 = b &&& 7 := by omega
  rw [this]

theorem video_map_videoram (b : Nat) (h1 : 0x4800 ≤ b) (h2 : b ≤ 0x4fff) (w : Bool) :
    mrgame_state.video_map.route w b = some (handler.ram_videoram, b &&& 0x3ff) := by
  have hf := and_0400 b
  have h7 : b &&& 0x3ff = b % 1024 := Nat.and_pow_two_sub_one_eq_mod b 10
  have hc : (map_ram 0x4800 0x4bff 0x0400 handler.ram_videoram).covers b := by
    show 0x4800 ≤ b - (b &&& 0x0400) ∧ b - (b &&& 0x0400) ≤ 0x4bff
    omega
  have hr := (route_of_covers mrgame_state.video_map rfl
    (ranges_disjoint_of_apart _ (by decide)) _ (by decide) b hc w).2
  rw [hr]
  have : b - (b &&& 0x0400) - 0x4800 = b &&& 0x3ff := by omega
  cases w
  · show some (handler.ram_videoram, b - (b &&& 0x0400) - 0x4800) = _
    rw [this]
  · show some (handler.ram_videoram, b - (b &&& 0x0400) - 0x4800) = _
    rw [this]

/-- C12: in the five address maps that declare mirrors (video_map,
wcup90_video_map, mks100_ext_map, s10_ext_map, s220_ext_map), every address
`a` in the mirrored span of an entry reaches that entry, as does its base
address `a AND NOT mirror`, with the same handler and the same offset inside
the range; in video_map every address in 0x6800..0x6fff reaches the select
latch with bit index `a & 7` and every address in 0x4800..0x4fff reaches
videoram at offset `a & 0x3ff`. -/
theorem mirrored_address_routes_as_base (m : address_map) (hm : m ∈ mirrored_address_maps)
    (e : address_map_entry) (he : e ∈ m.entries) (a : Nat) (hc : e.covers a) (w : Bool) :
    m.lookup a = some e ∧
    m.lookup (clear_mirror a e.addrmirror) = some e ∧
    e.offset (clear_mirror a e.addrmirror) = e.offset a ∧
    m.route w a = (if w then e.write else e.read).map (fun h => (h, e.offset a)) ∧
    m.route w (clear_mirror a e.addrmirror) = m.route w a ∧
    (∀ b : Nat, 0x6800 ≤ b → b ≤ 0x6fff →
      mrgame_state.video_map.route true b = some (handler.selectlatch_write_d0, b &&& 7)) ∧
    (∀ b : Nat, 0x4800 ≤ b → b ≤ 0x4fff → ∀ k : Bool,
      mrgame_state.video_map.route k b = some (handler.ram_videoram, b &&& 0x3ff)) := by
  obtain ⟨hg, hap⟩ := mirrored_address_maps_apart m hm
  have hd := ranges_disjoint_of_apart m hap
  have hcb : e.covers (clear_mirror a e.addrmirror) := (covers_clear_mirror e a).mpr hc
  obtain ⟨l1, r1⟩ := route_of_covers m hg hd e he a hc w
  obtain ⟨l2, r2⟩ := route_of_covers m hg hd e he _ hcb w
  refine ⟨l1, l2, offset_clear_mirror e a, r1, ?_, video_map_select_latch,
    fun b h1 h2 k => video_map_videoram b h1 h2 k⟩
  rw [r1, r2, offset_clear_mirror]

theorem mirrored_address_routes_as_base_witness :
    mrgame_state.video_map ∈ mirrored_address_maps ∧
    (map_w 0x6800 0x6807 0x07f8 handler.selectlatch_write_d0).covers 0x6ff9 ∧
    mrgame_state.video_map.route true (clear_mirror 0x6ff9 0x07f8) =
      mrgame_state.video_map.route true 0x6ff9 :=
  ⟨by decide, by decide,
   (mirrored_address_routes_as_base mrgame_state.video_map (by decide)
     (map_w 0x6800 0x6807 0x07f8 handler.selectlatch_write_d0) (by decide) 0x6ff9
     (by decide) true).2.2.2.2.1⟩

/-! ## Roland S-10 family: LCD pixels -/

/-- C17: `roland_s10_state::lcd_pixel_update` stores a pixel only when
`x < 5`, `y < 8`, `line < 2` and `pos < 8`, at row `y < 8` and column
`(line*8 + pos)*6 + x <= 94 < 96` of the 96x8 screen;
`roland_s220_state::lcd_pixel_update` stores only when `x < 5`, `y < 8`,
`line < 2` and `pos < 16`, at row `line*8 + y < 16` and column
`pos*6 + x <= 94 < 96` of the 96x16 screen; in both, two accepted tuples that
hit the same pixel are the same tuple. -/
theorem lcd_pixel_update_in_screen (bitmap : List pixel_store)
    (line pos y x line2 pos2 y2 x2 : Nat) (state : Int) :
    (roland_s10_state.screen_width = 96 ∧ roland_s10_state.screen_height = 8 ∧
      roland_s220_state.screen_width = 96 ∧ roland_s220_state.screen_height = 16) ∧
    ((x < 5 ∧ y < 8 ∧ line < 2 ∧ pos < 8) →
      roland_s10_state.lcd_pixel_update bitmap line pos y x state =
        pixel_store.mk y ((line * 8 + pos) * 6 + x) (state % 65536) :: bitmap ∧
      y < roland_s10_state.screen_height ∧
      (line * 8 + pos) * 6 + x ≤ 94 ∧
      (line * 8 + pos) * 6 + x < roland_s10_state.screen_width) ∧
    (¬ (x < 5 ∧ y < 8 ∧ line < 2 ∧ pos < 8) →
      roland_s10_state.lcd_pixel_update bitmap line pos y x state = bitmap) ∧
    ((x < 5 ∧ y < 8 ∧ line < 2 ∧ pos < 8) → (x2 < 5 ∧ y2 < 8 ∧ line2 < 2 ∧ pos2 < 8) →
      y = y2 → (line * 8 + pos) * 6 + x = (line2 * 8 + pos2) * 6 + x2 →
      x = x2 ∧ y = y2 ∧ line = line2 ∧ pos = pos2) ∧
    ((x < 5 ∧ y < 8 ∧ line < 2 ∧ pos < 16) →
      roland_s220_state.lcd_pixel_update bitmap line pos y x state =
        pixel_store.mk (line * 8 + y) (pos * 6 + x) (state % 65536) :: bitmap ∧
      line * 8 + y < roland_s220_state.screen_height ∧
      pos * 6 + x ≤ 94 ∧
      pos * 6 + x < roland_s220_state.screen_width) ∧
    (¬ (x < 5 ∧ y < 8 ∧ line < 2 ∧ pos < 16) →
      roland_s220_state.lcd_pixel_update bitmap line pos y x state = bitmap) ∧
    ((x < 5 ∧ y < 8 ∧ line < 2 ∧ pos < 16) → (x2 < 5 ∧ y2 < 8 ∧ line2 < 2 ∧ pos2 < 16) →
      line * 8 + y = line2 * 8 + y2 → pos * 6 + x = pos2 * 6 + x2 →
      x = x2 ∧ y = y2 ∧ line = line2 ∧ pos = pos2) := by
  refine ⟨⟨rfl, rfl, rfl, rfl⟩, ?_, ?_, ?_, ?_, ?_, ?_⟩
  · intro h
    refine ⟨?_, ?_, ?_, ?_⟩
    · unfold roland_s10_state.lcd_pixel_update
      rw [if_pos h]
    · show y < 8 * 1
      omega
    · omega
    · show (line * 8 + pos) * 6 + x < 6 * 16
      omega
  · intro h
    unfold roland_s10_state.lcd_pixel_update
    rw [if_neg h]
  · intro h h2 hy hcol
    omega
  · intro h
    refine ⟨?_, ?_, ?_, ?_⟩
    · unfold roland_s220_state.lcd_pixel_update
      rw [if_pos h]
    · show line * 8 + y < 8 * 2
      omega
    · omega
    · show pos * 6 + x < 6 * 16
      omega
  · intro h
    unfold roland_s220_state.lcd_pixel_update
    rw [if_neg h]
  · intro h h2 hrow hcol
    omega

theorem lcd_pixel_update_in_screen_witness :
    (4 < 5 ∧ 7 < 8 ∧ 1 < 2 ∧ 7 < 8) ∧
    roland_s10_state.lcd_pixel_update [] 1 7 7 4 1 = [pixel_store.mk 7 94 1] ∧
    roland_s10_state.lcd_pixel_update [] 1 8 7 4 1 = [] ∧
    roland_s220_state.lcd_pixel_update [] 1 15 7 4 1 = [pixel_store.mk 15 94 1] :=
  ⟨by decide,
   ((lcd_pixel_update_in_screen [] 1 7 7 4 0 0 0 0 1).2.1 (by decide)).1,
   (lcd_pixel_update_in_screen [] 1 8 7 4 0 0 0 0 1).2.2.1 (by decide),
   ((lcd_pixel_update_in_screen [] 1 15 7 4 0 0 0 0 1).2.2.2.2.1 (by decide)).1⟩

/-! ## Roland S-10 family: QDD window -/

theorem BIT_eq_zero_iff (x n : Nat) : BIT x n = 0 ↔ x.testBit n = false := by
  have h := BIT_ne_zero_eq_testBit x n
  constructor
  · intro h0
    rw [← h]
    exact decide_eq_false (fun hne => hne h0)
  · intro hf
    rw [hf] at h
    have := of_decide_eq_false h
    exact Decidable.not_not.mp this

theorem mks100_qdd_window (a : Nat) (h1 : 0x4000 ≤ a) (h2 : a ≤ 0x4fff) (w : Bool) :
    roland_s10_state.mks100_ext_map.route w a =
      some (if w then handler.qdd_w else handler.qdd_r, a &&& 3) := by
  have hf := and_0ffc a
  have h3 : a &&& 3 = a % 4 := Nat.and_pow_two_sub_one_eq_mod a 2
  have hc : (map_rw 0x4000 0x4003 0xffc handler.qdd_r handler.qdd_w).covers a := by
    show 0x4000 ≤ a - (a &&& 0xffc) ∧ a - (a &&& 0xffc) ≤ 0x4003
    omega
  have hr := (route_of_covers roland_s10_state.mks100_ext_map rfl
    (ranges_disjoint_of_apart _ (by decide)) _ (by decide) a hc w).2
  rw [hr]
  have : a - (a &&& 0xffc) - 0x4000 = a &&& 3 := by omega
  cases w
  · show some (handler.qdd_r, a - (a &&& 0xffc) - 0x4000) = _
    rw [this]
    rfl
  · show some (handler.qdd_w, a - (a &&& 0xffc) - 0x4000) = _
    rw [this]
    rfl

/-- C18: `qdd_r` forwards the read to the USART with the same offset exactly
when bit 1 of the offset is 0 and otherwise returns 0 without any USART
access; `qdd_w` forwards the write with the same offset and data exactly when
bit 1 of the offset is 0 and otherwise leaves the USART untouched; in the
window 0..3 that is offsets 0 and 1 against 2 and 3, and every address of
0x4000..0x4fff in `mks100_ext_map` reaches them with offset `a & 3`. -/
theorem qdd_window_gating (usart_read : List usart_access → Nat → Nat)
    (accesses : List usart_access) (offset data a : Nat) :
    (offset.testBit 1 = false →
      roland_s10_state.qdd_r usart_read accesses offset =
        (usart_read accesses offset, usart_access.read offset :: accesses) ∧
      roland_s10_state.qdd_w accesses offset data =
        usart_access.write offset data :: accesses) ∧
    (offset.testBit 1 = true →
      roland_s10_state.qdd_r usart_read accesses offset = (0, accesses) ∧
      roland_s10_state.qdd_w accesses offset data = accesses) ∧
    (offset < 4 →
      (offset.testBit 1 = false ↔ (offset = 0 ∨ offset = 1)) ∧
      (offset.testBit 1 = true ↔ (offset = 2 ∨ offset = 3))) ∧
    (0x4000 ≤ a → a ≤ 0x4fff →
      roland_s10_state.mks100_ext_map.route false a = some (handler.qdd_r, a &&& 3) ∧
      roland_s10_state.mks100_ext_map.route true a = some (handler.qdd_w, a &&& 3) ∧
      a &&& 3 < 4) := by
  refine ⟨?_, ?_, ?_, ?_⟩
  · intro h
    have hb : BIT offset 1 = 0 := (BIT_eq_zero_iff offset 1).mpr h
    unfold roland_s10_state.qdd_r roland_s10_state.qdd_w
    rw [if_pos hb, if_pos hb]
    exact ⟨rfl, rfl⟩
  · intro h
    have hb : ¬ BIT offset 1 = 0 := by
      intro h0
      rw [(BIT_eq_zero_iff offset 1).mp h0] at h
      exact Bool.noConfusion h
    unfold roland_s10_state.qdd_r roland_s10_state.qdd_w
    rw [if_neg hb, if_neg hb]
    exact ⟨rfl, rfl⟩
  · intro h
    interval_cases offset <;> decide
  · intro h1 h2
    refine ⟨mks100_qdd_window a h1 h2 false, mks100_qdd_window a h1 h2 true, ?_⟩
    have h3 : a &&& 3 = a % 4 := Nat.and_pow_two_sub_one_eq_mod a 2
    omega

theorem qdd_window_gating_witness :
    (Nat.testBit 1 1 = false) ∧
    roland_s10_state.qdd_r (fun _ _ => 0x5a) [] 1 = (0x5a, [usart_access.read 1]) ∧
    roland_s10_state.qdd_w [] 2 0x77 = [] ∧
    roland_s10_state.mks100_ext_map.route false 0x4ffd = some (handler.qdd_r, 0x4ffd &&& 3) :=
  ⟨by decide,
   ((qdd_window_gating (fun _ _ => 0x5a) [] 1 0x77 0x4ffd).1 (by decide)).1,
   ((qdd_window_gating (fun _ _ => 0x5a) [] 2 0x77 0x4ffd).2.1 (by decide)).2,
   ((qdd_window_gating (fun _ _ => 0x5a) [] 1 0x77 0x4ffd).2.2.2 (by decide) (by decide)).1⟩

/-! ## The video maps of the two variants -/

theorem route_of_not_covered (m : address_map) (hg : m.globalmask = none) (a : Nat)
    (h : ∀ e ∈ m.entries, ¬ e.covers a) (w : Bool) : m.route w a = none := by
  have hl : m.lookup a = none := by
    unfold address_map.lookup address_map.lookup_in
    rw [masked_of_no_globalmask m hg, List.find?_eq_none]
    intro e he
    simpa using h e he
  unfold address_map.route
  rw [hl]

theorem video_maps_disjoint :
    mrgame_state.video_map.ranges_disjoint ∧ mrgame_state.wcup90_video_map.ranges_disjoint :=
  ⟨ranges_disjoint_of_apart _ (by decide), ranges_disjoint_of_apart _ (by decide)⟩

theorem shifted_route_eq (ev ew : address_map_entry)
    (hev : ev ∈ mrgame_state.video_map.entries)
    (hew : ew ∈ mrgame_state.wcup90_video_map.entries) (a : Nat) (w : Bool)
    (hcv : ev.covers a) (hcw : ew.covers (a + 0x4000))
    (hr : ev.read = ew.read) (hwr : ev.write = ew.write)
    (ho : ev.offset a = ew.offset (a + 0x4000)) :
    mrgame_state.video_map.route w a = mrgame_state.wcup90_video_map.route w (a + 0x4000) := by
  rw [(route_of_covers _ rfl video_maps_disjoint.1 ev hev a hcv w).2,
    (route_of_covers _ rfl video_maps_disjoint.2 ew hew (a + 0x4000) hcw w).2, hr, hwr, ho]

theorem video_map_unmapped (a : Nat) (w : Bool)
    (h : (0x5800 ≤ a ∧ a ≤ 0x67ff) ∨ (0x7800 ≤ a ∧ a ≤ 0x7fff) ∨
      (0x8000 ≤ a ∧ a ≤ 0xffff ∧ a / 256 % 2 = 0)) :
    mrgame_state.video_map.route w a = none := by
  apply route_of_not_covered _ rfl
  have h0 : a &&& 0 = 0 := Nat.and_zero a
  have hf1 := and_0400 a
  have hf2 := and_0700 a
  have hf3 := and_07f8 a
  have hf4 := and_07ff a
  have hf5 := and_7efc a
  intro e he
  simp only [mrgame_state.video_map, List.mem_cons, List.mem_singleton, List.not_mem_nil,
    or_false] at he
  rcases he with rfl | rfl | rfl | rfl | rfl | rfl | rfl
  · show ¬ (0x0000 ≤ a - (a &&& 0) ∧ a - (a &&& 0) ≤ 0x3fff)
    omega
  · show ¬ (0x4000 ≤ a - (a &&& 0) ∧ a - (a &&& 0) ≤ 0x47ff)
    omega
  · show ¬ (0x4800 ≤ a - (a &&& 0x0400) ∧ a - (a &&& 0x0400) ≤ 0x4bff)
    omega
  · show ¬ (0x5000 ≤ a - (a &&& 0x0700) ∧ a - (a &&& 0x0700) ≤ 0x50ff)
    omega
  · show ¬ (0x6800 ≤ a - (a &&& 0x07f8) ∧ a - (a &&& 0x07f8) ≤ 0x6807)
    omega
  · show ¬ (0x7000 ≤ a - (a &&& 0x07ff) ∧ a - (a &&& 0x07ff) ≤ 0x7000)
    omega
  · show ¬ (0x8100 ≤ a - (a &&& 0x7efc) ∧ a - (a &&& 0x7efc) ≤ 0x8103)
    omega

theorem wcup90_video_map_unmapped (a : Nat) (w : Bool)
    (h : (0x9800 ≤ a ∧ a ≤ 0xa7ff) ∨ (0xb800 ≤ a ∧ a ≤ 0xbfff)) :
    mrgame_state.wcup90_video_map.route w a = none := by
  apply route_of_not_covered _ rfl
  have h0 : a &&& 0 = 0 := Nat.and_zero a
  have hf1 := and_0400 a
  have hf2 := and_0700 a
  have hf3 := and_07f8 a
  have hf4 := and_07ff a
  have hf5 := and_3ffc a
  intro e he
  simp only [mrgame_state.wcup90_video_map, List.mem_cons, List.mem_singleton,
    List.not_mem_nil, or_false] at he
  rcases he with rfl | rfl | rfl | rfl | rfl | rfl | rfl
  · show ¬ (0x0000 ≤ a - (a &&& 0) ∧ a - (a &&& 0) ≤ 0x7fff)
    omega
  · show ¬ (0x8000 ≤ a - (a &&& 0) ∧ a - (a &&& 0) ≤ 0x87ff)
    omega
  · show ¬ (0x8800 ≤ a - (a &&& 0x0400) ∧ a - (a &&& 0x0400) ≤ 0x8bff)
    omega
  · show ¬ (0x9000 ≤ a - (a &&& 0x0700) ∧ a - (a &&& 0x0700) ≤ 0x90ff)
    omega
  · show ¬ (0xa800 ≤ a - (a &&& 0x07f8) ∧ a - (a &&& 0x07f8) ≤ 0xa807)
    omega
  · show ¬ (0xb000 ≤ a - (a &&& 0x07ff) ∧ a - (a &&& 0x07ff) ≤ 0xb000)
    omega
  · show ¬ (0xc000 ≤ a - (a &&& 0x3ffc) ∧ a - (a &&& 0x3ffc) ≤ 0xc003)
    omega

theorem wcup90_video_map_ppi (b : Nat) (h1 : 0xc000 ≤ b) (h2 : b ≤ 0xffff) (w : Bool) :
    mrgame_state.wcup90_video_map.route w b =
      some (if w then handler.ppi_write else handler.ppi_read, b &&& 3) := by
  have hf := and_3ffc b
  have h3 : b &&& 3 = b % 4 := Nat.and_pow_two_sub_one_eq_mod b 2
  have hc : (map_rw 0xc000 0xc003 0x3ffc handler.ppi_read handler.ppi_write).covers b := by
    show 0xc000 ≤ b - (b &&& 0x3ffc) ∧ b - (b &&& 0x3ffc) ≤ 0xc003
    omega
  rw [(route_of_covers _ rfl video_maps_disjoint.2 _ (by decide) b hc w).2]
  have : b - (b &&& 0x3ffc) - 0xc000 = b &&& 3 := by omega
  cases w
  · show some (handler.ppi_read, b - (b &&& 0x3ffc) - 0xc000) = _
    rw [this]
    rfl
  · show some (handler.ppi_write, b - (b &&& 0x3ffc) - 0xc000) = _
    rw [this]
    rfl

theorem video_maps_shifted_below_8000 (a : Nat) (w : Bool) (h1 : 0x4000 ≤ a)
    (h2 : a < 0x8000) :
    mrgame_state.video_map.route w a =
      mrgame_state.wcup90_video_map.route w (a + 0x4000) := by
  have h0 : a &&& 0 = 0 := Nat.and_zero a
  have h0b : (a + 0x4000) &&& 0 = 0 := Nat.and_zero _
  have hf1 := and_0400 a
  have hf2 := and_0700 a
  have hf3 := and_07f8 a
  have hf4 := and_07ff a
  have hg1 := and_0400 (a + 0x4000)
  have hg2 := and_0700 (a + 0x4000)
  have hg3 := and_07f8 (a + 0x4000)
  have hg4 := and_07ff (a + 0x4000)
  have hreg : a ≤ 0x47ff ∨ (0x4800 ≤ a ∧ a ≤ 0x4fff) ∨ (0x5000 ≤ a ∧ a ≤ 0x57ff) ∨
      (0x5800 ≤ a ∧ a ≤ 0x67ff) ∨ (0x6800 ≤ a ∧ a ≤ 0x6fff) ∨ (0x7000 ≤ a ∧ a ≤ 0x77ff) ∨
      (0x7800 ≤ a ∧ a ≤ 0x7fff) := by
    omega
  rcases hreg with h | h | h | h | h | h | h
  · refine shifted_route_eq (map_ram 0x4000 0x47ff 0 handler.ram)
      (map_ram 0x8000 0x87ff 0 handler.ram) (by decide) (by decide) a w ?_ ?_ rfl rfl ?_
    · show 0x4000 ≤ a - (a &&& 0) ∧ a - (a &&& 0) ≤ 0x47ff
      omega
    · show 0x8000 ≤ a + 0x4000 - ((a + 0x4000) &&& 0) ∧
        a + 0x4000 - ((a + 0x4000) &&& 0) ≤ 0x87ff
      omega
    · show a - (a &&& 0) - 0x4000 = a + 0x4000 - ((a + 0x4000) &&& 0) - 0x8000
      omega
  · refine shifted_route_eq (map_ram 0x4800 0x4bff 0x0400 handler.ram_videoram)
      (map_ram 0x8800 0x8bff 0x0400 handler.ram_videoram) (by decide) (by decide) a w
      ?_ ?_ rfl rfl ?_
    · show 0x4800 ≤ a - (a &&& 0x0400) ∧ a - (a &&& 0x0400) ≤ 0x4bff
      omega
    · show 0x8800 ≤ a + 0x4000 - ((a + 0x4000) &&& 0x0400) ∧
        a + 0x4000 - ((a + 0x4000) &&& 0x0400) ≤ 0x8bff
      omega
    · show a - (a &&& 0x0400) - 0x4800 =
        a + 0x4000 - ((a + 0x4000) &&& 0x0400) - 0x8800
      omega
  · refine shifted_route_eq (map_ram 0x5000 0x50ff 0x0700 handler.ram_objectram)
      (map_ram 0x9000 0x90ff 0x0700 handler.ram_objectram) (by decide) (by decide) a w
      ?_ ?_ rfl rfl ?_
    · show 0x5000 ≤ a - (a &&& 0x0700) ∧ a - (a &&& 0x0700) ≤ 0x50ff
      omega
    · show 0x9000 ≤ a + 0x4000 - ((a + 0x4000) &&& 0x0700) ∧
        a + 0x4000 - ((a + 0x4000) &&& 0x0700) ≤ 0x90ff
      omega
    · show a - (a &&& 0x0700) - 0x5000 =
        a + 0x4000 - ((a + 0x4000) &&& 0x0700) - 0x9000
      omega
  · rw [video_map_unmapped a w (Or.inl h),
      wcup90_video_map_unmapped (a + 0x4000) w (Or.inl (by omega))]
  · refine shifted_route_eq (map_w 0x6800 0x6807 0x07f8 handler.selectlatch_write_d0)
      (map_w 0xa800 0xa807 0x07f8 handler.selectlatch_write_d0) (by decide) (by decide) a w
      ?_ ?_ rfl rfl ?_
    · show 0x6800 ≤ a - (a &&& 0x07f8) ∧ a - (a &&& 0x07f8) ≤ 0x6807
      omega
    · show 0xa800 ≤ a + 0x4000 - ((a + 0x4000) &&& 0x07f8) ∧
        a + 0x4000 - ((a + 0x4000) &&& 0x07f8) ≤ 0xa807
      omega
    · show a - (a &&& 0x07f8) - 0x6800 =
        a + 0x4000 - ((a + 0x4000) &&& 0x07f8) - 0xa800
      omega
  · refine shifted_route_eq (map_nopr 0x7000 0x7000 0x07ff)
      (map_nopr 0xb000 0xb000 0x07ff) (by decide) (by decide) a w ?_ ?_ rfl rfl ?_
    · show 0x7000 ≤ a - (a &&& 0x07ff) ∧ a - (a &&& 0x07ff) ≤ 0x7000
      omega
    · show 0xb000 ≤ a + 0x4000 - ((a + 0x4000) &&& 0x07ff) ∧
        a + 0x4000 - ((a + 0x4000) &&& 0x07ff) ≤ 0xb000
      omega
    · show a - (a &&& 0x07ff) - 0x7000 =
        a + 0x4000 - ((a + 0x4000) &&& 0x07ff) - 0xb000
      omega
  · rw [video_map_unmapped a w (Or.inr (Or.inl h)),
      wcup90_video_map_unmapped (a + 0x4000) w (Or.inr (by omega))]

theorem video_map_ppi (a : Nat) (h1 : 0x8000 ≤ a) (h2 : a ≤ 0xffff) (h8 : a / 256 % 2 = 1)
    (w : Bool) :
    mrgame_state.video_map.route w a =
      some (if w then handler.ppi_write else handler.ppi_read, a &&& 3) := by
  have hf := and_7efc a
  have h3 : a &&& 3 = a % 4 := Nat.and_pow_two_sub_one_eq_mod a 2
  have hc : (map_rw 0x8100 0x8103 0x7efc handler.ppi_read handler.ppi_write).covers a := by
    show 0x8100 ≤ a - (a &&& 0x7efc) ∧ a - (a &&& 0x7efc) ≤ 0x8103
    omega
  rw [(route_of_covers _ rfl video_maps_disjoint.1 _ (by decide) a hc w).2]
  have : a - (a &&& 0x7efc) - 0x8100 = a &&& 3 := by omega
  cases w
  · show some (handler.ppi_read, a - (a &&& 0x7efc) - 0x8100) = _
    rw [this]
    rfl
  · show some (handler.ppi_write, a - (a &&& 0x7efc) - 0x8100) = _
    rw [this]
    rfl

theorem testBit_eight (a : Nat) : a.testBit 8 = decide (a / 256 % 2 = 1) :=
  Nat.testBit_to_div_mod

/-- C13 (as it stands, refuted): address 0x8000 is unmapped in `video_map`,
while `wcup90_video_map` routes 0x8000 + 0x4000 = 0xc000 to the PPI at offset
0; so the two tables do not agree on all of 0x4000..0xbfff. -/
theorem video_maps_differ_at_8000 :
    mrgame_state.video_map.route false 0x8000 = none ∧
    mrgame_state.wcup90_video_map.route false (0x8000 + 0x4000) =
      some (handler.ppi_read, 0) ∧
    ¬ (∀ (a : Nat) (w : Bool), 0x4000 ≤ a → a ≤ 0xbfff →
        mrgame_state.video_map.route w a =
          mrgame_state.wcup90_video_map.route w (a + 0x4000)) := by
  refine ⟨by decide, by decide, fun h => ?_⟩
  have h1 := h 0x8000 false (by decide) (by decide)
  revert h1
  decide

/-- C13 (amended): for every address `a` with `0x4000 <= a <= 0xbfff`, except
those at or above 0x8000 whose address bit 8 is clear, `video_map` routes `a`
exactly as `wcup90_video_map` routes `a + 0x4000`: same region or hook (work
RAM, videoram, objectram, select-latch write, watchdog no-op read, PPI, or
unmapped) and same offset, for reads and for writes.  For `a` at or above
0x8000 with bit 8 clear, `video_map` leaves `a` unmapped while
`wcup90_video_map` routes `a + 0x4000` to the PPI at offset `a & 3`. -/
theorem video_maps_same_table_shifted (a : Nat) (w : Bool) (h1 : 0x4000 ≤ a)
    (h2 : a ≤ 0xbfff) :
    ((a < 0x8000 ∨ a.testBit 8 = true) →
      mrgame_state.video_map.route w a =
        mrgame_state.wcup90_video_map.route w (a + 0x4000)) ∧
    ((0x8000 ≤ a ∧ a.testBit 8 = false) →
      mrgame_state.video_map.route w a = none ∧
      mrgame_state.wcup90_video_map.route w (a + 0x4000) =
        some (if w then handler.ppi_write else handler.ppi_read, a &&& 3)) := by
  have h3 : a &&& 3 = a % 4 := Nat.and_pow_two_sub_one_eq_mod a 2
  have h3b : (a + 0x4000) &&& 3 = (a + 0x4000) % 4 :=
    Nat.and_pow_two_sub_one_eq_mod (a + 0x4000) 2
  have hoff : (a + 0x4000) &&& 3 = a &&& 3 := by omega
  refine ⟨fun h => ?_, fun h => ?_⟩
  · by_cases hlt : a < 0x8000
    · exact video_maps_shifted_below_8000 a w h1 hlt
    · have hb : a.testBit 8 = true := h.resolve_left hlt
      rw [testBit_eight] at hb
      have h8 : a / 256 % 2 = 1 := of_decide_eq_true hb
      rw [video_map_ppi a (by omega) (by omega) h8 w,
        wcup90_video_map_ppi (a + 0x4000) (by omega) (by omega) w, hoff]
  · obtain ⟨hge, hb⟩ := h
    rw [testBit_eight] at hb
    have h8 : ¬ a / 256 % 2 = 1 := of_decide_eq_false hb
    refine ⟨video_map_unmapped a w (Or.inr (Or.inr ⟨hge, by omega, by omega⟩)), ?_⟩
    rw [wcup90_video_map_ppi (a + 0x4000) (by omega) (by omega) w, hoff]

theorem video_maps_same_table_shifted_witness :
    (0x4000 ≤ 0x6ff9 ∧ 0x6ff9 ≤ 0xbfff) ∧
    mrgame_state.video_map.route true 0x6ff9 =
      mrgame_state.wcup90_video_map.route true (0x6ff9 + 0x4000) ∧
    mrgame_state.video_map.route false 0x8200 = none :=
  ⟨by decide,
   (video_maps_same_table_shifted 0x6ff9 true (by decide) (by decide)).1
     (Or.inl (by decide)),
   ((video_maps_same_table_shifted 0x8200 false (by decide) (by decide)).2
     ⟨by decide, by decide⟩).1⟩

